import Mathlib

/-!
alimns: the signed request pipeline and the queue manager.

A shallow embedding of `client.go`, `utils.go` and `queue_manager.go`.

* Go `error` values are modelled by their message (`Error := String`), a nil
  error by `none`.
* A `map[string]string` is an association list read by first match and
  written by replacing the key; the nil map is `none`.
* `[]byte` is a list of bytes.
* What the code leaves to other packages or to the outside world is a
  parameter: the encoder `xml.Marshal`, the reading of the clock, the order in
  which `range` visits a map, `http.NewRequest`, `http.Client.Do`, the
  `Credential` and `MNSDecoder` interfaces and the header-key constants.
  `crypto/md5`, `fmt`'s `%x` and `encoding/base64` are modelled after RFC 1321
  and RFC 4648, `http.Header.Add` and `http.TimeFormat` after the Go library.
* Effects (signature requests, HTTP round trips, decoder calls, closing the
  response body, constructing a client) are recorded in an explicit trace.
-/

namespace Alimns

set_option maxRecDepth 100000

/-! ## Basic data -/

/-- A Go `error`, identified with its message. -/
abbrev Error := String

/-- One byte. -/
abbrev Byte := Fin 256

/-- A Go `[]byte`. -/
abbrev Bytes := List Byte

/-- A Go `map[string]string`. -/
abbrev Headers := List (String × String)

/-- Reading `headers[k]` (with the `ok` flag as `Option`). -/
def Headers.get (h : Headers) (k : String) : Option String :=
  match h with
  | [] => none
  | (k', v) :: rest => if k' = k then some v else Headers.get rest k

/-- The assignment `headers[k] = v`. -/
def Headers.set (h : Headers) (k v : String) : Headers :=
  match h with
  | [] => [(k, v)]
  | (k', v') :: rest => if k' = k then (k, v) :: rest else (k', v') :: Headers.set rest k v

/-! ## `crypto/md5`, `%x` and `encoding/base64` -/

/-- Per-round left-rotation amounts of MD5 (RFC 1321). -/
def md5Shifts : List Nat :=
  [7, 12, 17, 22, 7, 12, 17, 22, 7, 12, 17, 22, 7, 12, 17, 22,
   5, 9, 14, 20, 5, 9, 14, 20, 5, 9, 14, 20, 5, 9, 14, 20,
   4, 11, 16, 23, 4, 11, 16, 23, 4, 11, 16, 23, 4, 11, 16, 23,
   6, 10, 15, 21, 6, 10, 15, 21, 6, 10, 15, 21, 6, 10, 15, 21]

/-- The sine-derived constants of MD5 (RFC 1321). -/
def md5Consts : List Nat :=
  [0xd76aa478, 0xe8c7b756, 0x242070db, 0xc1bdceee, 0xf57c0faf, 0x4787c62a, 0xa8304613, 0xfd469501,
   0x698098d8, 0x8b44f7af, 0xffff5bb1, 0x895cd7be, 0x6b901122, 0xfd987193, 0xa679438e, 0x49b40821,
   0xf61e2562, 0xc040b340, 0x265e5a51, 0xe9b6c7aa, 0xd62f105d, 0x02441453, 0xd8a1e681, 0xe7d3fbc8,
   0x21e1cde6, 0xc33707d6, 0xf4d50d87, 0x455a14ed, 0xa9e3e905, 0xfcefa3f8, 0x676f02d9, 0x8d2a4c8a,
   0xfffa3942, 0x8771f681, 0x6d9d6122, 0xfde5380c, 0xa4beea44, 0x4bdecfa9, 0xf6bb4b60, 0xbebfbc70,
   0x289b7ec6, 0xeaa127fa, 0xd4ef3085, 0x04881d05, 0xd9d4d039, 0xe6db99e5, 0x1fa27cf8, 0xc4ac5665,
   0xf4292244, 0x432aff97, 0xab9423a7, 0xfc93a039, 0x655b59c3, 0x8f0ccc92, 0xffeff47d, 0x85845dd1,
   0x6fa87e4f, 0xfe2ce6e0, 0xa3014314, 0x4e0811a1, 0xf7537e82, 0xbd3af235, 0x2ad7d2bb, 0xeb86d391]

/-- Truncation to an unsigned 32-bit word. -/
def w32 (x : Nat) : Nat := x % 2 ^ 32

/-- Rotate a 32-bit word left by `c` bits. -/
def rotl32 (x c : Nat) : Nat := w32 ((x <<< c) ||| (x >>> (32 - c)))

/-- Bitwise complement of a 32-bit word. -/
def not32 (x : Nat) : Nat := 0xffffffff - w32 x

/-- The working state of MD5: the four words A, B, C, D. -/
structure MD5State where
  a : Nat
  b : Nat
  c : Nat
  d : Nat

/-- The initial chaining value of MD5. -/
def md5Init : MD5State := ⟨0x67452301, 0xefcdab89, 0x98badcfe, 0x10325476⟩

/-- The padded message: a `0x80` byte, zeros up to 56 mod 64, then the bit
length as 8 little-endian bytes. -/
def md5Pad (msg : Bytes) : List Nat :=
  let n := msg.length
  let zeros := (55 + 64 - n % 64) % 64
  let bits := (8 * n) % 2 ^ 64
  msg.map (fun b => b.val) ++ [0x80] ++ List.replicate zeros 0 ++
    (List.range 8).map (fun i => (bits >>> (8 * i)) % 256)

/-- The sixteen little-endian 32-bit words of a 64-byte block. -/
def md5Words (block : List Nat) : List Nat :=
  (List.range 16).map (fun i =>
    block.getD (4 * i) 0 + block.getD (4 * i + 1) 0 * 2 ^ 8 +
      block.getD (4 * i + 2) 0 * 2 ^ 16 + block.getD (4 * i + 3) 0 * 2 ^ 24)

/-- One of the 64 steps of the MD5 compression function. -/
def md5Step (m : List Nat) (s : MD5State) (i : Nat) : MD5State :=
  let fg : Nat × Nat :=
    if i < 16 then ((s.b &&& s.c) ||| (not32 s.b &&& s.d), i)
    else if i < 32 then ((s.d &&& s.b) ||| (not32 s.d &&& s.c), (5 * i + 1) % 16)
    else if i < 48 then (s.b ^^^ s.c ^^^ s.d, (3 * i + 5) % 16)
    else (s.c ^^^ (s.b ||| not32 s.d), (7 * i) % 16)
  let f := w32 (fg.1 + s.a + md5Consts.getD i 0 + m.getD fg.2 0)
  ⟨s.d, w32 (s.b + rotl32 f (md5Shifts.getD i 0)), s.b, s.c⟩

/-- The MD5 compression function on one 64-byte block. -/
def md5Block (s : MD5State) (block : List Nat) : MD5State :=
  let m := md5Words block
  let t := (List.range 64).foldl (md5Step m) s
  ⟨w32 (s.a + t.a), w32 (s.b + t.b), w32 (s.c + t.c), w32 (s.d + t.d)⟩

/-- The four little-endian bytes of a 32-bit word. -/
def le32 (x : Nat) : List Nat :=
  [x % 256, (x >>> 8) % 256, (x >>> 16) % 256, (x >>> 24) % 256]

/-- The 16-byte MD5 digest, `md5.Sum`. -/
def md5Sum (msg : Bytes) : List Nat :=
  let p := md5Pad msg
  let s := (List.range (p.length / 64)).foldl
    (fun s i => md5Block s ((p.drop (64 * i)).take 64)) md5Init
  le32 s.a ++ le32 s.b ++ le32 s.c ++ le32 s.d

/-- One lowercase hexadecimal digit. -/
def hexDigit (n : Nat) : Char := "0123456789abcdef".toList.getD n '0'

/-- The verb `%x` applied to a byte array: two lowercase digits per byte. -/
def hexBytes (bs : List Nat) : List Char :=
  bs.flatMap (fun b => [hexDigit (b / 16), hexDigit (b % 16)])

/-- The alphabet of `base64.StdEncoding`. -/
def base64Alphabet : List Char :=
  "ABCDEFGHIJKLMNOPQRSTUVWXYZabcdefghijklmnopqrstuvwxyz0123456789+/".toList

/-- A character of the standard base64 alphabet. -/
def base64Char (n : Nat) : Char := base64Alphabet.getD n 'A'

/-- Padded standard base64 (`base64.StdEncoding.EncodeToString`). -/
def base64Encode : List Nat → List Char
  | [] => []
  | [a] => [base64Char (a / 4), base64Char (a % 4 * 16), '=', '=']
  | [a, b] => [base64Char (a / 4), base64Char (a % 4 * 16 + b / 16), base64Char (b % 16 * 4), '=']
  | a :: b :: c :: rest =>
      base64Char (a / 4) :: base64Char (a % 4 * 16 + b / 16) ::
        base64Char (b % 16 * 4 + c / 64) :: base64Char (c % 64) :: base64Encode rest

/-- The call `base64.StdEncoding.EncodeToString`. -/
def base64EncodeToString (bs : List Nat) : String := String.mk (base64Encode bs)

/-- The call `fmt.Sprintf("%x", sum)` on a digest. -/
def sprintfHex (sum : List Nat) : String := String.mk (hexBytes sum)

/-- The conversion `[]byte(s)` of a string. -/
def stringBytes (s : String) : List Nat := s.toList.map (fun c => c.toNat)

/-! ## `http.Header` and `http.TimeFormat` -/

/-- The bytes allowed in a header field name (the token characters of
RFC 7230): letters, digits and the marks in the list. -/
def validHeaderFieldByte (c : Char) : Bool :=
  c.isAlphanum ||
    [33, 35, 36, 37, 38, 39, 42, 43, 45, 46, 94, 95, 96, 124, 126].contains c.toNat

/-- The canonical letters of a header key: upper case at the start and after
each dash, lower case elsewhere. -/
def canonicalLetters : Bool → List Char → List Char
  | _, [] => []
  | upper, c :: cs =>
    let c₁ := if upper && c.isLower then c.toUpper
      else if !upper && c.isUpper then c.toLower else c
    c₁ :: canonicalLetters (c₁ == '-') cs

/-- The function `textproto.CanonicalMIMEHeaderKey`: a key with a byte that
is not allowed in a field name is returned unchanged. -/
def CanonicalMIMEHeaderKey (s : String) : String :=
  if s.toList.all validHeaderFieldByte then String.mk (canonicalLetters true s.toList) else s

/-- An `http.Header`, a `map[string][]string`. -/
abbrev HTTPHeader := List (String × List String)

/-- Reading `h[key]` (nil is the empty list). -/
def HTTPHeader.get (h : HTTPHeader) (key : String) : List String :=
  match h with
  | [] => []
  | (k, vs) :: rest => if k = key then vs else HTTPHeader.get rest key

/-- The assignment `h[key] = append(h[key], value)`. -/
def HTTPHeader.append (h : HTTPHeader) (key value : String) : HTTPHeader :=
  match h with
  | [] => [(key, [value])]
  | (k, vs) :: rest =>
    if k = key then (k, vs ++ [value]) :: rest else (k, vs) :: HTTPHeader.append rest key value

/-- The method `http.Header.Add`: the value is appended under the canonical
form of the key. -/
def HTTPHeader.Add (h : HTTPHeader) (key value : String) : HTTPHeader :=
  HTTPHeader.append h (CanonicalMIMEHeaderKey key) value

/-- A decimal digit. -/
def digitChar (n : Nat) : Char := Char.ofNat (48 + n % 10)

/-- A number printed with two digits. -/
def pad2 (n : Nat) : String := String.mk [digitChar (n / 10), digitChar n]

/-- A year printed with at least four digits. -/
def pad4 (n : Nat) : String :=
  if n < 10000 then
    String.mk [digitChar (n / 1000), digitChar (n / 100), digitChar (n / 10), digitChar n]
  else toString n

/-- The names of the days of the week, from Sunday. -/
def dayNames : List String := ["Sun", "Mon", "Tue", "Wed", "Thu", "Fri", "Sat"]

/-- The names of the months. -/
def monthNames : List String :=
  ["Jan", "Feb", "Mar", "Apr", "May", "Jun", "Jul", "Aug", "Sep", "Oct", "Nov", "Dec"]

/-- The text `time.Unix(t, 0).UTC().Format(http.TimeFormat)` for an instant
`t` seconds after the start of 1970, with the layout
`Mon, 02 Jan 2006 15:04:05 GMT` (proleptic Gregorian calendar). -/
def httpDate (t : Nat) : String :=
  let days := t / 86400
  let secs := t % 86400
  let z := days + 719468
  let era := z / 146097
  let doe := z % 146097
  let yoe := (doe - doe / 1460 + doe / 36524 - doe / 146096) / 365
  let doy := doe - (365 * yoe + yoe / 4 - yoe / 100)
  let mp := (5 * doy + 2) / 153
  let day := doy - (153 * mp + 2) / 5 + 1
  let month := if mp < 10 then mp + 3 else mp - 9
  let year := yoe + era * 400 + (if month ≤ 2 then 1 else 0)
  dayNames.getD ((days + 4) % 7) "" ++ ", " ++ pad2 day ++ " " ++
    monthNames.getD (month - 1) "" ++ " " ++ pad4 year ++ " " ++
    pad2 (secs / 3600) ++ ":" ++ pad2 (secs / 60 % 60) ++ ":" ++ pad2 (secs % 60) ++ " GMT"

/-! ## `client.go` -/

/-- The constant `version`. -/
def version : String := "2015-06-06"

/-- The constant `DefaultTimeout`, in seconds. -/
def DefaultTimeout : Int := 35

/-- The type `Method`, a string. -/
abbrev Method := String

/-- The constant `GET`. -/
def GET : Method := "GET"

/-- The constant `PUT`. -/
def PUT : Method := "PUT"

/-- The constant `POST`. -/
def POST : Method := "POST"

/-- The constant `DELETE`. -/
def DELETE : Method := "DELETE"

/-- The header-key constants `MQ_VERSION`, `CONTENT_TYPE`, `CONTENT_MD5`, `DATE`
and `AUTHORIZATION`.  They are declared outside the three files, so their
values are a parameter of the model. -/
structure HeaderKeys where
  MQ_VERSION : String
  CONTENT_TYPE : String
  CONTENT_MD5 : String
  DATE : String
  AUTHORIZATION : String

/-- The five header keys are five different strings. -/
def HeaderKeys.Distinct (keys : HeaderKeys) : Prop :=
  [keys.MQ_VERSION, keys.CONTENT_TYPE, keys.CONTENT_MD5, keys.DATE, keys.AUTHORIZATION].Nodup

instance (keys : HeaderKeys) : Decidable keys.Distinct := by
  unfold HeaderKeys.Distinct
  infer_instance

/-- The interface `Credential`: only its method `Signature` is used here. -/
structure Credential where
  Signature : Method → Headers → String → Except Error String

/-- A value of type `time.Duration` is a signed 64-bit count of nanoseconds. -/
def wrap64 (x : Int) : Int := (x + 2 ^ 63) % 2 ^ 64 - 2 ^ 63

/-- The constant `time.Second`. -/
def Second : Int := 1000000000

/-- The timeouts of the `http.Client` a client owns (nanoseconds): the dialer
timeout and the two timeouts of the `http.Transport`. -/
structure HTTPClient where
  DialTimeout : Int := 0
  ExpectContinueTimeout : Int := 0
  ResponseHeaderTimeout : Int := 0

/-- The struct `AliMNSClient` (the mutex carries no data); the defaults are the
zero values `new(AliMNSClient)` gives. -/
structure AliMNSClient where
  Timeout : Int := 0
  url : String := ""
  credential : Credential
  accessKeyId : String := ""
  client : HTTPClient := {}
  proxyURL : String := ""

/-- A function either returns or panics. -/
inductive Outcome (α : Type) where
  | ret (a : α)
  | panic (msg : String)
  deriving DecidableEq

/-- The constructor `NewAliMNSClient`; `newCredential` stands for
`NewAliMNSCredential`, which is declared outside the three files. -/
def NewAliMNSClient (newCredential : String → Credential)
    (url accessKeyId accessKeySecret : String) : Outcome AliMNSClient :=
  if url = "" then
    .panic "ali-mns: message queue url is empty"
  else
    let credential := newCredential accessKeySecret
    let aliMNSClient : AliMNSClient :=
      { credential := credential, accessKeyId := accessKeyId, url := url }
    let timeoutInt := if aliMNSClient.Timeout > 0 then aliMNSClient.Timeout else DefaultTimeout
    let timeout := wrap64 (Second * wrap64 timeoutInt)
    .ret { aliMNSClient with
      client :=
        { DialTimeout := wrap64 (Second * 3)
          ExpectContinueTimeout := timeout
          ResponseHeaderTimeout := wrap64 (timeout + Second) } }

/-- The method `SetProxy`. -/
def AliMNSClient.SetProxy (p : AliMNSClient) (url : String) : AliMNSClient :=
  { p with proxyURL := url }

/-- The method `authorization`. -/
def AliMNSClient.authorization (p : AliMNSClient)
    (method : Method) (headers : Headers) (resource : String) : Except Error String :=
  match p.credential.Signature method headers resource with
  | .error e => .error e
  | .ok signature => .ok ("MNS " ++ p.accessKeyId ++ ":" ++ signature)

/-- The argument `message interface{}` of `Send`: nil, a `[]byte`, or any
other value. -/
inductive Message (σ : Type) where
  | nil
  | bytes (m : Bytes)
  | value (v : σ)

/-- An `*http.Response`, as far as the code reads it. -/
structure Response where
  StatusCode : Int
  Body : Bytes

/-- An `*http.Request`: method, target, the field `Header` and the body. -/
structure Request where
  method : String
  url : String
  header : HTTPHeader
  body : Bytes

/-- What `Send` takes from outside the repository: `xml.Marshal`, the reading
of `time.Now()` in seconds since the start of 1970, the order in which
`range` visits the entries of a map (every entry once), the validation done
by `http.NewRequest` (its error, if any) and `http.Client.Do`. -/
structure World (σ : Type) where
  marshal : σ → Except Error Bytes
  now : Nat
  rangeOrder : Headers → Headers
  rangeOrder_perm : ∀ h, (rangeOrder h).Perm h
  newRequest : String → String → Option Error
  clientDo : HTTPClient → String → Request → Option Response × Option Error

/-- What a client does that can be observed from outside. -/
inductive ClientEffect where
  | signature (method : Method) (headers : Headers) (resource : String)
  | newRequest (method : String) (url : String) (body : Bytes)
  | httpDo (req : Request)

/-- The request of an effect that is an HTTP round trip. -/
def ClientEffect.request? : ClientEffect → Option Request
  | .httpDo req => some req
  | _ => none

/-- The two results of `Send`, the header map as the call leaves it (a map is
a reference: a non-nil argument is updated in place) and the effects the call
had. -/
structure SendReturn where
  resp : Option Response
  err : Option Error
  headers : Headers
  effects : List ClientEffect

/-- The requests a call of `Send` transmitted, in order. -/
def SendReturn.transmitted (r : SendReturn) : List Request :=
  r.effects.filterMap ClientEffect.request?

/-- The interface `MNSClient` (its method `Send`). -/
structure MNSClient (σ : Type) where
  Send : Method → Option Headers → Message σ → String → SendReturn

/-- Lines 113-129 of `Send`: the body bytes of a message. -/
def xmlContentOf {σ : Type} (w : World σ) (message : Message σ) : Except Error Bytes :=
  match message with
  | .nil => .ok []
  | .bytes m => .ok m
  | .value v => w.marshal v

/-- Lines 131-141 of `Send`: the header map once the four required headers
are set. -/
def requiredHeaders (keys : HeaderKeys) (now : Nat) (headers : Option Headers)
    (xmlContent : Bytes) : Headers :=
  let xmlMD5 := md5Sum xmlContent
  let strMd5 := sprintfHex xmlMD5
  let headers : Headers := match headers with
    | none => []
    | some h => h
  let headers := headers.set keys.MQ_VERSION version
  let headers := headers.set keys.CONTENT_TYPE "application/xml"
  let headers := headers.set keys.CONTENT_MD5 (base64EncodeToString (stringBytes strMd5))
  headers.set keys.DATE (httpDate now)

/-- Lines 161-163 of `Send`: every entry of the map, in the order `range`
visits them, is added to the empty header of the new request. -/
def addHeaders (entries : Headers) : HTTPHeader :=
  entries.foldl (fun h e => HTTPHeader.Add h e.1 e.2) []

/-- The method `Send` of `AliMNSClient`. -/
def AliMNSClient.Send {σ : Type} (w : World σ) (keys : HeaderKeys) (p : AliMNSClient)
    (method : Method) (headers : Option Headers) (message : Message σ)
    (resource : String) : SendReturn :=
  match xmlContentOf w message with
  | .error e => ⟨none, some e, headers.getD [], []⟩
  | .ok xmlContent =>
    let headers := requiredHeaders keys w.now headers xmlContent
    let asked := ClientEffect.signature method headers ("/" ++ resource)
    match p.authorization method headers ("/" ++ resource) with
    | .error e => ⟨none, some e, headers, [asked]⟩
    | .ok authHeader =>
      let headers := headers.set keys.AUTHORIZATION authHeader
      let url := p.url ++ "/" ++ resource
      let built := ClientEffect.newRequest method url xmlContent
      match w.newRequest method url with
      | some err => ⟨none, some err, headers, [asked, built]⟩
      | none =>
        let req : Request := ⟨method, url, addHeaders (w.rangeOrder headers), xmlContent⟩
        match w.clientDo p.client p.proxyURL req with
        | (resp, some err) => ⟨resp, some err, headers, [asked, built, .httpDo req]⟩
        | (resp, none) => ⟨resp, none, headers, [asked, built, .httpDo req]⟩

/-- An `AliMNSClient` seen through the interface `MNSClient`. -/
def AliMNSClient.toMNSClient {σ : Type} (w : World σ) (keys : HeaderKeys)
    (p : AliMNSClient) : MNSClient σ :=
  ⟨AliMNSClient.Send w keys p⟩

/-! ## `utils.go` -/

/-- What `send` asks the decoder to fill: its own `ErrorMessageResponse`, or
the value `v` of the caller. -/
inductive Target (τ : Type) where
  | errResp
  | value (v : τ)

/-- The interface `MNSDecoder`: `Decode(body, target)` gives back an error or
nil. -/
structure MNSDecoder (τ : Type) where
  Decode : Bytes → Target τ → Option Error

/-- What a call through the queue manager does that can be observed. -/
inductive Effect (τ : Type) where
  | newClient (url : String) (accessKeyId : String) (accessKeySecret : String)
  | client (e : ClientEffect)
  | decode (body : Bytes) (target : Target τ)
  | close (body : Bytes)

/-- Whether an effect is a call of `decoder.Decode`. -/
def Effect.isDecode {τ : Type} : Effect τ → Bool
  | .decode _ _ => true
  | _ => false

/-- Whether an effect is the call `resp.Body.Close()` on the given body. -/
def Effect.isClose {τ : Type} (body : Bytes) : Effect τ → Bool
  | .close b => decide (b = body)
  | _ => false

/-- The two results of `send`, with the effects it had. -/
structure SendResult (τ : Type) where
  code : Int
  err : Option Error
  effects : List (Effect τ)

/-- The constant `http.StatusOK`. -/
def StatusOK : Int := 200

/-- The constant `http.StatusCreated`. -/
def StatusCreated : Int := 201

/-- The constant `http.StatusNoContent`. -/
def StatusNoContent : Int := 204

/-- The function `send`.  The deferred `resp.Body.Close()` runs when the
function returns, so it is the last effect of every path that registered it. -/
def send {σ τ : Type} (client : MNSClient σ) (decoder : MNSDecoder τ)
    (method : Method) (headers : Option Headers) (message : Message σ)
    (resource : String) (v : Option τ) : SendResult τ :=
  let r := client.Send method headers message resource
  let sent : List (Effect τ) := r.effects.map Effect.client
  match r.err with
  | some err => ⟨0, some err, sent⟩
  | none =>
    match r.resp with
    | some resp =>
      if resp.StatusCode ≠ StatusCreated ∧ resp.StatusCode ≠ StatusOK ∧
          resp.StatusCode ≠ StatusNoContent then
        match decoder.Decode resp.Body .errResp with
        | some err => ⟨0, some err, sent ++ [.decode resp.Body .errResp, .close resp.Body]⟩
        | none => ⟨200, none, sent ++ [.decode resp.Body .errResp, .close resp.Body]⟩
      else
        match v with
        | some t =>
          match decoder.Decode resp.Body (.value t) with
          | some err => ⟨0, some err, sent ++ [.decode resp.Body (.value t), .close resp.Body]⟩
          | none => ⟨200, none, sent ++ [.decode resp.Body (.value t), .close resp.Body]⟩
        | none => ⟨200, none, sent ++ [.close resp.Body]⟩
    | none => ⟨200, none, sent⟩

/-! ## `queue_manager.go` -/

/-- The type `MNSLocation`, a string. -/
abbrev MNSLocation := String

/-- The struct `MNSQueueManager` (its field `credential` is never set or
read). -/
structure MNSQueueManager (τ : Type) where
  ownerId : String
  accessKeyId : String
  accessKeySecret : String
  decoder : MNSDecoder τ

/-- The predicate `unicode.IsSpace`. -/
def isSpace (c : Char) : Bool :=
  let n := c.toNat
  (9 ≤ n && n ≤ 13) || n = 0x20 || n = 0x85 || n = 0xA0 || n = 0x1680 ||
    (0x2000 ≤ n && n ≤ 0x200A) || n = 0x2028 || n = 0x2029 || n = 0x202F ||
    n = 0x205F || n = 0x3000

/-- The function `strings.TrimSpace`. -/
def TrimSpace (s : String) : String :=
  String.mk ((s.toList.dropWhile isSpace).reverse.dropWhile isSpace).reverse

/-- The function `checkQueueName`; `len` counts the bytes of the string. -/
def checkQueueName (queueName : String) : Option Error :=
  if queueName.utf8ByteSize > 256 then some "队列名最大 256" else none

/-- The function `checkDelaySeconds`. -/
def checkDelaySeconds (seconds : Int) : Option Error :=
  if seconds > 60480 ∨ seconds < 0 then some "queue delay 取值范围为 (0~60480)" else none

/-- The function `checkMaxMessageSize`. -/
def checkMaxMessageSize (maxSize : Int) : Option Error :=
  if maxSize < 1024 ∨ maxSize > 65536 then some "max message 取值范围为 (1024~65536)" else none

/-- The function `checkMessageRetentionPeriod`. -/
def checkMessageRetentionPeriod (retentionPeriod : Int) : Option Error :=
  if retentionPeriod < 60 ∨ retentionPeriod > 1296000 then
    some "retentionPeriod 取值范围为 60~1296000"
  else none

/-- The function `checkVisibilityTimeout`. -/
def checkVisibilityTimeout (visibilityTimeout : Int) : Option Error :=
  if visibilityTimeout < 1 ∨ visibilityTimeout > 43200 then
    some "visibilityTimeout 取值范围为 1~43200"
  else none

/-- The function `checkPollingWaitSeconds`. -/
def checkPollingWaitSeconds (pollingWaitSeconds : Int) : Option Error :=
  if pollingWaitSeconds < 0 ∨ pollingWaitSeconds > 30 then
    some "visibilityTimeout 取值范围为 0~30"
  else none

/-- The function `checkAttributes`. -/
def checkAttributes (delaySeconds maxMessageSize messageRetentionPeriod visibilityTimeout
    pollingWaitSeconds : Int) : Option Error :=
  match checkDelaySeconds delaySeconds with
  | some err => some err
  | none =>
  match checkMaxMessageSize maxMessageSize with
  | some err => some err
  | none =>
  match checkMessageRetentionPeriod messageRetentionPeriod with
  | some err => some err
  | none =>
  match checkVisibilityTimeout visibilityTimeout with
  | some err => some err
  | none =>
  match checkPollingWaitSeconds pollingWaitSeconds with
  | some err => some err
  | none => none

/-- The struct `CreateQueueRequest`, with the fields the queue manager sets. -/
structure CreateQueueRequest where
  DelaySeconds : Int
  MaxMessageSize : Int
  MessageRetentionPeriod : Int
  VisibilityTimeout : Int
  PollingWaitSeconds : Int

/-- What the queue manager takes from outside the three files: the world of
`Send`, the header keys and `NewAliMNSCredential`. -/
structure Env where
  world : World CreateQueueRequest
  keys : HeaderKeys
  newCredential : String → Credential

/-- The result of a queue-manager call: the returned error (or a panic) and
the effects the call had. -/
structure CallResult (τ : Type) where
  out : Outcome (Option Error)
  effects : List (Effect τ)

/-- The endpoint `fmt.Sprintf("http://%s.mns.%s.aliyuncs.com", ownerId, location)`. -/
def endpoint (ownerId : String) (location : MNSLocation) : String :=
  "http://" ++ ownerId ++ ".mns." ++ location ++ ".aliyuncs.com"

/-- The method `CreateQueue`. -/
def MNSQueueManager.CreateQueue {τ : Type} (env : Env) (p : MNSQueueManager τ)
    (location : MNSLocation) (queueName : String)
    (delaySeconds maxMessageSize messageRetentionPeriod visibilityTimeout
      pollingWaitSeconds : Int) : CallResult τ :=
  let queueName := TrimSpace queueName
  match checkQueueName queueName with
  | some err => ⟨.ret (some err), []⟩
  | none =>
  match checkAttributes delaySeconds maxMessageSize messageRetentionPeriod visibilityTimeout
      pollingWaitSeconds with
  | some err => ⟨.ret (some err), []⟩
  | none =>
    let message : CreateQueueRequest :=
      ⟨delaySeconds, maxMessageSize, messageRetentionPeriod, visibilityTimeout,
        pollingWaitSeconds⟩
    let url := endpoint p.ownerId location
    match NewAliMNSClient env.newCredential url p.accessKeyId p.accessKeySecret with
    | .panic msg => ⟨.panic msg, []⟩
    | .ret cli =>
      let r := send (cli.toMNSClient env.world env.keys) p.decoder PUT none (.value message)
        ("queues/" ++ queueName) none
      let effects := Effect.newClient url p.accessKeyId p.accessKeySecret :: r.effects
      if r.code = StatusNoContent then
        ⟨.ret (some "队列已存在"), effects⟩
      else
        ⟨.ret r.err, effects⟩

/-- The method `SetQueueAttributes`. -/
def MNSQueueManager.SetQueueAttributes {τ : Type} (env : Env) (p : MNSQueueManager τ)
    (location : MNSLocation) (queueName : String)
    (delaySeconds maxMessageSize messageRetentionPeriod visibilityTimeout
      pollingWaitSeconds : Int) : CallResult τ :=
  let queueName := TrimSpace queueName
  match checkQueueName queueName with
  | some err => ⟨.ret (some err), []⟩
  | none =>
  match checkAttributes delaySeconds maxMessageSize messageRetentionPeriod visibilityTimeout
      pollingWaitSeconds with
  | some err => ⟨.ret (some err), []⟩
  | none =>
    let message : CreateQueueRequest :=
      ⟨delaySeconds, maxMessageSize, messageRetentionPeriod, visibilityTimeout,
        pollingWaitSeconds⟩
    let url := endpoint p.ownerId location
    match NewAliMNSClient env.newCredential url p.accessKeyId p.accessKeySecret with
    | .panic msg => ⟨.panic msg, []⟩
    | .ret cli =>
      let r := send (cli.toMNSClient env.world env.keys) p.decoder PUT none (.value message)
        ("queues/" ++ queueName ++ "?metaoverride=true") none
      ⟨.ret r.err, Effect.newClient url p.accessKeyId p.accessKeySecret :: r.effects⟩

/-! ## Example inputs -/

/-- The header names of the MNS protocol, used as the key constants in the
examples. -/
def exampleKeys : HeaderKeys :=
  ⟨"x-mns-version", "Content-Type", "Content-MD5", "Date", "Authorization"⟩

/-- A credential that signs everything with the same signature. -/
def exampleCredential : Credential := ⟨fun _ _ _ => .ok "c2lnbmF0dXJl"⟩

/-- A world in which every payload encodes to the bytes of `<q/>`, every request
can be built and the server answers with the given status and body. -/
def exampleWorld (σ : Type) (status : Int) (body : Bytes) : World σ :=
  { marshal := fun _ => .ok [60, 113, 47, 62]
    now := 1793786400
    rangeOrder := fun h => h
    rangeOrder_perm := fun h => List.Perm.refl h
    newRequest := fun _ _ => none
    clientDo := fun _ _ _ => (some ⟨status, body⟩, none) }

/-- A world in which no payload can be encoded. -/
def failingMarshalWorld (σ : Type) : World σ :=
  { exampleWorld σ 200 [] with marshal := fun _ => .error "xml: unsupported type" }

/-- An environment of the queue manager whose server answers with the given
status and an empty body. -/
def exampleEnv (status : Int) : Env :=
  ⟨exampleWorld CreateQueueRequest status [], exampleKeys, fun _ => exampleCredential⟩

/-- A decoder that accepts every body. -/
def acceptingDecoder (τ : Type) : MNSDecoder τ := ⟨fun _ _ => none⟩

/-- A decoder that rejects every body. -/
def rejectingDecoder (τ : Type) : MNSDecoder τ := ⟨fun _ _ => some "EOF"⟩

/-- A queue manager with an accepting decoder. -/
def exampleManager : MNSQueueManager Unit := ⟨"owner", "key-id", "key-secret", acceptingDecoder Unit⟩

/-- The bytes of an ASCII string. -/
def asciiBytes (s : String) : Bytes := s.toList.map (fun c => Fin.ofNat c.toNat)

/-- A well-formed error document of the service. -/
def errorBody : Bytes :=
  asciiBytes "<Error><Code>QueueNotExist</Code><Message>no such queue</Message></Error>"

/-- A client as `NewAliMNSClient` builds it. -/
def exampleClient : AliMNSClient :=
  { credential := exampleCredential
    accessKeyId := "key-id"
    url := "http://owner.mns.cn-hangzhou.aliyuncs.com"
    client := ⟨3000000000, 35000000000, 36000000000⟩ }

/-- A client whose `Send` hands back the given response and error, whatever
it is asked. -/
def stubClient (σ : Type) (resp : Option Response) (err : Option Error) : MNSClient σ :=
  ⟨fun _ headers _ _ => ⟨resp, err, headers.getD [], []⟩⟩

/-- A header map of a caller that sets a content type of its own. -/
def callerHeaders : Headers := [("Content-Type", "text/plain"), ("x-mns-marker", "m1")]

/-- A queue name of 257 bytes. -/
def longQueueName : String := String.mk (List.replicate 257 'a')

/-- The header map holds the four required headers for the body `xmlContent`
sent at time `now`. -/
def HasRequiredHeaders (keys : HeaderKeys) (now : Nat) (xmlContent : Bytes)
    (h : Headers) : Prop :=
  Headers.get h keys.MQ_VERSION = some "2015-06-06" ∧
  Headers.get h keys.CONTENT_TYPE = some "application/xml" ∧
  Headers.get h keys.CONTENT_MD5
    = some (base64EncodeToString (stringBytes (sprintfHex (md5Sum xmlContent)))) ∧
  Headers.get h keys.DATE = some (httpDate now)

/-- The entries of the header map the caller handed to `Send` (none for the
nil map). -/
def callerEntries (headers : Option Headers) : Headers := headers.getD []

/-- The entries of a header map whose key has the canonical form `c`: the
entries `http.Header.Add` puts under the key `c`. -/
def Headers.under (h : Headers) (c : String) : Headers :=
  h.filter (fun e => decide (CanonicalMIMEHeaderKey e.1 = c))

/-! ## Header maps -/

theorem Headers.get_set_self (h : Headers) (k v : String) :
    Headers.get (Headers.set h k v) k = some v := by
  induction h with
  | nil => simp [Headers.set, Headers.get]
  | cons a rest ih =>
    obtain ⟨k', v'⟩ := a
    by_cases hk : k' = k
    · simp [Headers.set, Headers.get, hk]
    · simp [Headers.set, Headers.get, hk, ih]

theorem Headers.get_set_of_ne (h : Headers) (k k' v : String) (hne : k ≠ k') :
    Headers.get (Headers.set h k v) k' = Headers.get h k' := by
  induction h with
  | nil => simp [Headers.set, Headers.get, hne]
  | cons a rest ih =>
    obtain ⟨k₀, v₀⟩ := a
    by_cases hk : k₀ = k
    · subst hk
      simp [Headers.set, Headers.get, hne]
    · by_cases hk' : k₀ = k'
      · subst hk'
        simp [Headers.set, Headers.get, hk]
      · simp [Headers.set, Headers.get, hk, hk', ih]

theorem Headers.mem_of_get (h : Headers) (k v : String) (hget : Headers.get h k = some v) :
    (k, v) ∈ h := by
  induction h with
  | nil => simp [Headers.get] at hget
  | cons a rest ih =>
    obtain ⟨k₀, v₀⟩ := a
    by_cases hk : k₀ = k
    · subst hk
      simp only [Headers.get, if_true, Option.some.injEq] at hget
      subst hget
      exact List.mem_cons_self _ _
    · simp only [Headers.get, if_neg hk] at hget
      exact List.mem_cons_of_mem _ (ih hget)

/-! ## The header of a request -/

theorem HTTPHeader.get_append_self (h : HTTPHeader) (k v : String) :
    HTTPHeader.get (HTTPHeader.append h k v) k = HTTPHeader.get h k ++ [v] := by
  induction h with
  | nil => simp [HTTPHeader.append, HTTPHeader.get]
  | cons a rest ih =>
    obtain ⟨k₀, vs⟩ := a
    by_cases hk : k₀ = k
    · simp [HTTPHeader.append, HTTPHeader.get, hk]
    · simp [HTTPHeader.append, HTTPHeader.get, hk, ih]

theorem HTTPHeader.get_append_of_ne (h : HTTPHeader) (k k₁ v : String) (hne : k ≠ k₁) :
    HTTPHeader.get (HTTPHeader.append h k v) k₁ = HTTPHeader.get h k₁ := by
  induction h with
  | nil => simp [HTTPHeader.append, HTTPHeader.get, hne]
  | cons a rest ih =>
    obtain ⟨k₀, vs⟩ := a
    by_cases hk : k₀ = k
    · subst hk
      simp [HTTPHeader.append, HTTPHeader.get, hne]
    · by_cases hk₁ : k₀ = k₁
      · subst hk₁
        simp [HTTPHeader.append, HTTPHeader.get, hk]
      · simp [HTTPHeader.append, HTTPHeader.get, hk, hk₁, ih]

/-- Adding entries one by one appends, under each key, the values of the
entries with that canonical key, in order. -/
theorem HTTPHeader.get_foldl_Add (es : Headers) (h : HTTPHeader) (c : String) :
    HTTPHeader.get (es.foldl (fun h e => HTTPHeader.Add h e.1 e.2) h) c
      = HTTPHeader.get h c ++ (Headers.under es c).map Prod.snd := by
  induction es generalizing h with
  | nil => simp [Headers.under]
  | cons e rest ih =>
    rw [List.foldl_cons, ih]
    by_cases hc : CanonicalMIMEHeaderKey e.1 = c
    · subst hc
      simp [Headers.under, HTTPHeader.Add, HTTPHeader.get_append_self]
    · simp [Headers.under, HTTPHeader.Add, HTTPHeader.get_append_of_ne _ _ _ _ hc, hc]

/-- The values a request carries under the key `c` are the values of the map
entries whose key has the canonical form `c`. -/
theorem HTTPHeader.get_addHeaders (es : Headers) (c : String) :
    HTTPHeader.get (addHeaders es) c = (Headers.under es c).map Prod.snd := by
  unfold addHeaders
  rw [HTTPHeader.get_foldl_Add]
  rfl

/-- Every value of the map is among the values carried under the canonical
form of its key, whatever the order in which the map is visited. -/
theorem addHeaders_mem (order h : Headers) (hperm : order.Perm h) (k v : String)
    (hget : Headers.get h k = some v) :
    v ∈ HTTPHeader.get (addHeaders order) (CanonicalMIMEHeaderKey k) := by
  rw [HTTPHeader.get_addHeaders]
  have hmem : (k, v) ∈ order := hperm.symm.subset (Headers.mem_of_get h k v hget)
  exact List.mem_map.mpr ⟨(k, v), by simp [Headers.under, hmem], rfl⟩

/-- A value of the map is the only one carried under the canonical form of
its key when no other entry of the map has a key with that canonical form. -/
theorem addHeaders_only (order h : Headers) (hperm : order.Perm h) (k v : String)
    (hget : Headers.get h k = some v)
    (hone : (Headers.under h (CanonicalMIMEHeaderKey k)).length ≤ 1) :
    HTTPHeader.get (addHeaders order) (CanonicalMIMEHeaderKey k) = [v] := by
  rw [HTTPHeader.get_addHeaders]
  have hmem : (k, v) ∈ Headers.under order (CanonicalMIMEHeaderKey k) := by
    have : (k, v) ∈ order := hperm.symm.subset (Headers.mem_of_get h k v hget)
    simp [Headers.under, this]
  have hlen : (Headers.under order (CanonicalMIMEHeaderKey k)).length ≤ 1 := by
    have hp : (Headers.under order (CanonicalMIMEHeaderKey k)).Perm
        (Headers.under h (CanonicalMIMEHeaderKey k)) := List.Perm.filter _ hperm
    rw [hp.length_eq]
    exact hone
  match hlist : Headers.under order (CanonicalMIMEHeaderKey k), hmem, hlen with
  | [], hm, _ => simp at hm
  | [e], hm, _ =>
    simp only [List.mem_singleton] at hm
    subst hm
    rfl
  | _ :: _ :: _, _, hl => simp at hl

/-! ## The attribute checks -/

theorem checkDelaySeconds_eq_none (x : Int) :
    checkDelaySeconds x = none ↔ 0 ≤ x ∧ x ≤ 60480 := by
  unfold checkDelaySeconds
  split_ifs with h <;> simp <;> omega

theorem checkMaxMessageSize_eq_none (x : Int) :
    checkMaxMessageSize x = none ↔ 1024 ≤ x ∧ x ≤ 65536 := by
  unfold checkMaxMessageSize
  split_ifs with h <;> simp <;> omega

theorem checkMessageRetentionPeriod_eq_none (x : Int) :
    checkMessageRetentionPeriod x = none ↔ 60 ≤ x ∧ x ≤ 1296000 := by
  unfold checkMessageRetentionPeriod
  split_ifs with h <;> simp <;> omega

theorem checkVisibilityTimeout_eq_none (x : Int) :
    checkVisibilityTimeout x = none ↔ 1 ≤ x ∧ x ≤ 43200 := by
  unfold checkVisibilityTimeout
  split_ifs with h <;> simp <;> omega

theorem checkPollingWaitSeconds_eq_none (x : Int) :
    checkPollingWaitSeconds x = none ↔ 0 ≤ x ∧ x ≤ 30 := by
  unfold checkPollingWaitSeconds
  split_ifs with h <;> simp <;> omega

/-- C10 (as stated, refuted): with a queue name of 257 bytes and
`delaySeconds = -1`, `checkAttributes` fails with the delay error, but
`CreateQueue` and `SetQueueAttributes` return the queue-name error instead. -/
theorem queueName_error_precedes_attribute_error :
    checkAttributes (-1) 1024 60 1 0 = some "queue delay 取值范围为 (0~60480)" ∧
    (exampleManager.CreateQueue (exampleEnv 201) "cn-hangzhou" longQueueName
        (-1) 1024 60 1 0).out = .ret (some "队列名最大 256") ∧
    (exampleManager.SetQueueAttributes (exampleEnv 201) "cn-hangzhou" longQueueName
        (-1) 1024 60 1 0).out = .ret (some "队列名最大 256") ∧
    (exampleManager.CreateQueue (exampleEnv 201) "cn-hangzhou" longQueueName
        (-1) 1024 60 1 0).out ≠ .ret (checkAttributes (-1) 1024 60 1 0) ∧
    (exampleManager.SetQueueAttributes (exampleEnv 201) "cn-hangzhou" longQueueName
        (-1) 1024 60 1 0).out ≠ .ret (checkAttributes (-1) 1024 60 1 0) := by
  have hname : checkQueueName (TrimSpace longQueueName) = some "队列名最大 256" := by decide
  have hattr : checkAttributes (-1) 1024 60 1 0 = some "queue delay 取值范围为 (0~60480)" := by
    decide
  have hc : (exampleManager.CreateQueue (exampleEnv 201) "cn-hangzhou" longQueueName
      (-1) 1024 60 1 0).out = .ret (some "队列名最大 256") := by
    simp only [MNSQueueManager.CreateQueue, hname]
  have hs : (exampleManager.SetQueueAttributes (exampleEnv 201) "cn-hangzhou" longQueueName
      (-1) 1024 60 1 0).out = .ret (some "队列名最大 256") := by
    simp only [MNSQueueManager.SetQueueAttributes, hname]
  refine ⟨hattr, hc, hs, ?_, ?_⟩
  · rw [hc, hattr]; decide
  · rw [hs, hattr]; decide

/-- C10 (amended): `checkAttributes` returns nil exactly when the five values
lie in their inclusive ranges; otherwise it returns the error of the first
failing check in the order delay, size, retention, visibility, polling.  When
the trimmed queue name is at most 256 bytes long, `CreateQueue` and
`SetQueueAttributes` return that error with no effect at all: no client is
constructed and nothing is sent.  When the trimmed queue name is longer than
256 bytes, both return the queue-name error instead, whatever the five values
are, again with no effect at all. -/
theorem checkAttributes_first_failure {τ : Type} (env : Env) (p : MNSQueueManager τ)
    (location : MNSLocation) (queueName : String) (d m r v w : Int) :
    (checkAttributes d m r v w = none ↔
      (0 ≤ d ∧ d ≤ 60480) ∧ (1024 ≤ m ∧ m ≤ 65536) ∧ (60 ≤ r ∧ r ≤ 1296000) ∧
        (1 ≤ v ∧ v ≤ 43200) ∧ (0 ≤ w ∧ w ≤ 30)) ∧
    (¬ (0 ≤ d ∧ d ≤ 60480) → checkAttributes d m r v w = checkDelaySeconds d) ∧
    ((0 ≤ d ∧ d ≤ 60480) → ¬ (1024 ≤ m ∧ m ≤ 65536) →
      checkAttributes d m r v w = checkMaxMessageSize m) ∧
    ((0 ≤ d ∧ d ≤ 60480) → (1024 ≤ m ∧ m ≤ 65536) → ¬ (60 ≤ r ∧ r ≤ 1296000) →
      checkAttributes d m r v w = checkMessageRetentionPeriod r) ∧
    ((0 ≤ d ∧ d ≤ 60480) → (1024 ≤ m ∧ m ≤ 65536) → (60 ≤ r ∧ r ≤ 1296000) →
      ¬ (1 ≤ v ∧ v ≤ 43200) → checkAttributes d m r v w = checkVisibilityTimeout v) ∧
    ((0 ≤ d ∧ d ≤ 60480) → (1024 ≤ m ∧ m ≤ 65536) → (60 ≤ r ∧ r ≤ 1296000) →
      (1 ≤ v ∧ v ≤ 43200) → ¬ (0 ≤ w ∧ w ≤ 30) →
      checkAttributes d m r v w = checkPollingWaitSeconds w) ∧
    ((TrimSpace queueName).utf8ByteSize ≤ 256 →
      ∀ e, checkAttributes d m r v w = some e →
        p.CreateQueue env location queueName d m r v w = ⟨.ret (some e), []⟩ ∧
        p.SetQueueAttributes env location queueName d m r v w = ⟨.ret (some e), []⟩) ∧
    ((TrimSpace queueName).utf8ByteSize > 256 →
      p.CreateQueue env location queueName d m r v w = ⟨.ret (some "队列名最大 256"), []⟩ ∧
      p.SetQueueAttributes env location queueName d m r v w
        = ⟨.ret (some "队列名最大 256"), []⟩) := by
  have hd := checkDelaySeconds_eq_none d
  have hm := checkMaxMessageSize_eq_none m
  have hr := checkMessageRetentionPeriod_eq_none r
  have hv := checkVisibilityTimeout_eq_none v
  have hw := checkPollingWaitSeconds_eq_none w
  refine ⟨?_, ?_, ?_, ?_, ?_, ?_, ?_, ?_⟩
  · rw [← hd, ← hm, ← hr, ← hv, ← hw]
    unfold checkAttributes
    cases checkDelaySeconds d <;> cases checkMaxMessageSize m <;>
      cases checkMessageRetentionPeriod r <;> cases checkVisibilityTimeout v <;>
      cases checkPollingWaitSeconds w <;> simp
  · intro h
    rw [← hd] at h
    unfold checkAttributes
    cases hcd : checkDelaySeconds d with
    | none => exact absurd hcd h
    | some e => rfl
  · intro h1 h2
    rw [← hd] at h1
    rw [← hm] at h2
    unfold checkAttributes
    rw [h1]
    cases hcm : checkMaxMessageSize m with
    | none => exact absurd hcm h2
    | some e => rfl
  · intro h1 h2 h3
    rw [← hd] at h1
    rw [← hm] at h2
    rw [← hr] at h3
    unfold checkAttributes
    rw [h1, h2]
    cases hcr : checkMessageRetentionPeriod r with
    | none => exact absurd hcr h3
    | some e => rfl
  · intro h1 h2 h3 h4
    rw [← hd] at h1
    rw [← hm] at h2
    rw [← hr] at h3
    rw [← hv] at h4
    unfold checkAttributes
    rw [h1, h2, h3]
    cases hcv : checkVisibilityTimeout v with
    | none => exact absurd hcv h4
    | some e => rfl
  · intro h1 h2 h3 h4 h5
    rw [← hd] at h1
    rw [← hm] at h2
    rw [← hr] at h3
    rw [← hv] at h4
    unfold checkAttributes
    rw [h1, h2, h3, h4]
    cases hcw : checkPollingWaitSeconds w <;> rfl
  · intro hlen e he
    have hname : checkQueueName (TrimSpace queueName) = none := by
      unfold checkQueueName
      rw [if_neg (by omega)]
    constructor
    · simp only [MNSQueueManager.CreateQueue, hname, he]
    · simp only [MNSQueueManager.SetQueueAttributes, hname, he]
  · intro hlen
    have hname : checkQueueName (TrimSpace queueName) = some "队列名最大 256" := by
      unfold checkQueueName
      rw [if_pos hlen]
    constructor
    · simp only [MNSQueueManager.CreateQueue, hname]
    · simp only [MNSQueueManager.SetQueueAttributes, hname]

/-- Witness for `checkAttributes_first_failure`: the queue name `orders` with a
maximum message size of 100, and a queue name of 257 bytes with valid
values. -/
theorem checkAttributes_first_failure_witness :
    (TrimSpace "orders").utf8ByteSize ≤ 256 ∧
    checkAttributes 0 100 60 1 0 = some "max message 取值范围为 (1024~65536)" ∧
    exampleManager.CreateQueue (exampleEnv 201) "cn-hangzhou" "orders" 0 100 60 1 0 =
      ⟨.ret (some "max message 取值范围为 (1024~65536)"), []⟩ ∧
    exampleManager.SetQueueAttributes (exampleEnv 201) "cn-hangzhou" "orders" 0 100 60 1 0 =
      ⟨.ret (some "max message 取值范围为 (1024~65536)"), []⟩ ∧
    (TrimSpace longQueueName).utf8ByteSize > 256 ∧
    exampleManager.CreateQueue (exampleEnv 201) "cn-hangzhou" longQueueName 0 1024 60 1 0 =
      ⟨.ret (some "队列名最大 256"), []⟩ ∧
    exampleManager.SetQueueAttributes (exampleEnv 201) "cn-hangzhou" longQueueName
      0 1024 60 1 0 = ⟨.ret (some "队列名最大 256"), []⟩ :=
  have hname : (TrimSpace "orders").utf8ByteSize ≤ 256 := by decide
  have hlong : (TrimSpace longQueueName).utf8ByteSize > 256 := by decide
  have hattr : checkAttributes 0 100 60 1 0 = some "max message 取值范围为 (1024~65536)" := by
    decide
  have h₁ := (checkAttributes_first_failure (exampleEnv 201) exampleManager "cn-hangzhou"
    "orders" 0 100 60 1 0).2.2.2.2.2.2.1 hname _ hattr
  have h₂ := (checkAttributes_first_failure (exampleEnv 201) exampleManager "cn-hangzhou"
    longQueueName 0 1024 60 1 0).2.2.2.2.2.2.2 hlong
  ⟨hname, hattr, h₁.1, h₁.2, hlong, h₂.1, h₂.2⟩

/-! ## The function `send` -/

/-- C1 (the code at the failing input): a GET to `queues/missing` answered with
404 and a well-formed error document that the decoder accepts makes `send`
return the code 200 and a nil error: the decoded service error is dropped. -/
theorem send_drops_service_error :
    (send (exampleClient.toMNSClient (exampleWorld Unit 404 errorBody) exampleKeys)
        (acceptingDecoder Unit) GET none .nil "queues/missing" none).code = 200 ∧
    (send (exampleClient.toMNSClient (exampleWorld Unit 404 errorBody) exampleKeys)
        (acceptingDecoder Unit) GET none .nil "queues/missing" none).err = none := by
  constructor <;> rfl

/-- C2 (the code at the failing input): when the server answers 204, `send`
reports the code 200, and `CreateQueue` with valid parameters returns nil
instead of its error for an existing queue. -/
theorem createQueue_204_returns_nil :
    (send (exampleClient.toMNSClient (exampleWorld Unit 204 []) exampleKeys)
        (acceptingDecoder Unit) PUT none (.value ()) "queues/orders" none).code = 200 ∧
    (exampleManager.CreateQueue (exampleEnv 204) "cn-hangzhou" "orders"
        0 1024 60 1 0).out = .ret none := by
  constructor
  · rfl
  · decide

/-- C3: whenever the decode that `send` performs fails with error `e` (the
success body into a non-nil target when the status is 200, 201 or 204, the
service-error shape for any other status), `send` returns exactly `(0, e)`. -/
theorem send_surfaces_decode_error {σ τ : Type} (client : MNSClient σ)
    (decoder : MNSDecoder τ) (method : Method) (headers : Option Headers)
    (message : Message σ) (resource : String) (v : Option τ) (resp : Response) (e : Error)
    (herr : (client.Send method headers message resource).err = none)
    (hresp : (client.Send method headers message resource).resp = some resp)
    (hfail :
      ((resp.StatusCode = 200 ∨ resp.StatusCode = 201 ∨ resp.StatusCode = 204) ∧
        ∃ t, v = some t ∧ decoder.Decode resp.Body (.value t) = some e) ∨
      (¬ (resp.StatusCode = 200 ∨ resp.StatusCode = 201 ∨ resp.StatusCode = 204) ∧
        decoder.Decode resp.Body .errResp = some e)) :
    (send client decoder method headers message resource v).code = 0 ∧
    (send client decoder method headers message resource v).err = some e := by
  rcases hfail with ⟨hs, t, hv, hd⟩ | ⟨hs, hd⟩
  · have hc : ¬ (resp.StatusCode ≠ StatusCreated ∧ resp.StatusCode ≠ StatusOK ∧
        resp.StatusCode ≠ StatusNoContent) := by
      simp only [StatusCreated, StatusOK, StatusNoContent]
      omega
    simp only [send, herr, hresp, if_neg hc, hv, hd, and_self]
  · have hc : resp.StatusCode ≠ StatusCreated ∧ resp.StatusCode ≠ StatusOK ∧
        resp.StatusCode ≠ StatusNoContent := by
      simp only [StatusCreated, StatusOK, StatusNoContent]
      omega
    simp only [send, herr, hresp, if_pos hc, hd, and_self]

/-- Witness for `send_surfaces_decode_error`: a 500 answer whose body the
decoder rejects. -/
theorem send_surfaces_decode_error_witness :
    (send (stubClient Unit (some ⟨500, []⟩) none) (rejectingDecoder Unit) GET none .nil
        "queues" none).code = 0 ∧
    (send (stubClient Unit (some ⟨500, []⟩) none) (rejectingDecoder Unit) GET none .nil
        "queues" none).err = some "EOF" :=
  send_surfaces_decode_error (stubClient Unit (some ⟨500, []⟩) none) (rejectingDecoder Unit)
    GET none .nil "queues" none ⟨500, []⟩ "EOF" rfl rfl
    (Or.inr ⟨by decide, rfl⟩)

/-- C4: for a response with status 200, 201 or 204 and a nil target, `send`
returns a nil error and none of its effects is a call of `decoder.Decode`. -/
theorem send_success_without_target {σ τ : Type} (client : MNSClient σ)
    (decoder : MNSDecoder τ) (method : Method) (headers : Option Headers)
    (message : Message σ) (resource : String) (resp : Response)
    (herr : (client.Send method headers message resource).err = none)
    (hresp : (client.Send method headers message resource).resp = some resp)
    (hs : resp.StatusCode = 200 ∨ resp.StatusCode = 201 ∨ resp.StatusCode = 204) :
    (send client decoder method headers message resource none).err = none ∧
    (send client decoder method headers message resource none).effects.any Effect.isDecode
      = false := by
  have hc : ¬ (resp.StatusCode ≠ StatusCreated ∧ resp.StatusCode ≠ StatusOK ∧
      resp.StatusCode ≠ StatusNoContent) := by
    simp only [StatusCreated, StatusOK, StatusNoContent]
    omega
  simp only [send, herr, hresp, if_neg hc, true_and]
  simp [List.any_append, Effect.isDecode]

/-- Witness for `send_success_without_target`: a 201 answer. -/
theorem send_success_without_target_witness :
    (send (stubClient Unit (some ⟨201, errorBody⟩) none) (rejectingDecoder Unit) PUT none
        .nil "queues/orders" none).err = none ∧
    (send (stubClient Unit (some ⟨201, errorBody⟩) none) (rejectingDecoder Unit) PUT none
        .nil "queues/orders" none).effects.any Effect.isDecode = false :=
  send_success_without_target (stubClient Unit (some ⟨201, errorBody⟩) none)
    (rejectingDecoder Unit) PUT none .nil "queues/orders" ⟨201, errorBody⟩ rfl rfl
    (Or.inr (Or.inl rfl))

/-- C5 (as stated, refuted): when `client.Send` hands back a response together
with an error, `send` returns that error and has no effect at all: the body
of the response is not closed. -/
theorem send_leaves_body_open_on_error :
    (send (stubClient Unit (some ⟨302, errorBody⟩) (some "redirect refused"))
        (acceptingDecoder Unit) GET none .nil "queues" none).err = some "redirect refused" ∧
    (send (stubClient Unit (some ⟨302, errorBody⟩) (some "redirect refused"))
        (acceptingDecoder Unit) GET none .nil "queues" none).effects.any
          (Effect.isClose errorBody) = false := by
  constructor <;> rfl

/-- C5 (amended): whenever `client.Send` hands back an error, whatever response
comes with it, `send` returns `(0, err)` and its only effects are those of the
client: it neither decodes nor closes the body.  Whenever `client.Send` hands
back a response and a nil error, the last effect of `send` is closing the body
of that response, whatever the status, the target and the outcome of
decoding. -/
theorem send_closes_body {σ τ : Type} (client : MNSClient σ)
    (decoder : MNSDecoder τ) (method : Method) (headers : Option Headers)
    (message : Message σ) (resource : String) (v : Option τ) :
    (∀ e, (client.Send method headers message resource).err = some e →
      send client decoder method headers message resource v
        = ⟨0, some e, (client.Send method headers message resource).effects.map Effect.client⟩ ∧
      (send client decoder method headers message resource v).effects.any Effect.isDecode
        = false ∧
      ∀ body, (send client decoder method headers message resource v).effects.any
        (Effect.isClose body) = false) ∧
    (∀ resp, (client.Send method headers message resource).err = none →
      (client.Send method headers message resource).resp = some resp →
      (send client decoder method headers message resource v).effects.getLast?
        = some (.close resp.Body)) := by
  constructor
  · intro e herr
    have hsend : send client decoder method headers message resource v
        = ⟨0, some e, (client.Send method headers message resource).effects.map
            Effect.client⟩ := by
      simp only [send, herr]
    refine ⟨hsend, ?_, ?_⟩
    · rw [hsend]
      simp [List.any_map, Effect.isDecode]
    · intro body
      rw [hsend]
      simp [List.any_map, Effect.isClose]
  · intro resp herr hresp
    simp only [send, herr, hresp]
    split_ifs with hc
    · split <;> simp [List.getLast?_append]
    · cases v with
      | none => simp [List.getLast?_append]
      | some t =>
        simp only []
        split <;> simp [List.getLast?_append]

/-- Witness for `send_closes_body`: a 302 answer handed back with an error, and
a 404 answer whose body the decoder rejects. -/
theorem send_closes_body_witness :
    (stubClient Unit (some ⟨302, errorBody⟩) (some "redirect refused")).Send GET none .nil
      "queues" = ⟨some ⟨302, errorBody⟩, some "redirect refused", [], []⟩ ∧
    send (stubClient Unit (some ⟨302, errorBody⟩) (some "redirect refused"))
      (acceptingDecoder Unit) GET none .nil "queues" (some ())
      = ⟨0, some "redirect refused", []⟩ ∧
    (send (stubClient Unit (some ⟨404, errorBody⟩) none) (rejectingDecoder Unit) GET none
        .nil "queues/missing" (some ())).effects.getLast? = some (.close errorBody) :=
  ⟨rfl,
    ((send_closes_body (stubClient Unit (some ⟨302, errorBody⟩) (some "redirect refused"))
      (acceptingDecoder Unit) GET none .nil "queues" (some ())).1 "redirect refused" rfl).1,
    (send_closes_body (stubClient Unit (some ⟨404, errorBody⟩) none) (rejectingDecoder Unit)
      GET none .nil "queues/missing" (some ())).2 ⟨404, errorBody⟩ rfl rfl⟩

/-! ## The method `Send` -/

/-- On a payload that cannot be encoded `Send` returns the encoding error and
does nothing else. -/
theorem Send_of_unencodable {σ : Type} (w : World σ) (keys : HeaderKeys) (p : AliMNSClient)
    (method : Method) (headers : Option Headers) (message : Message σ) (resource : String)
    (e : Error) (henc : xmlContentOf w message = .error e) :
    p.Send w keys method headers message resource = ⟨none, some e, callerEntries headers, []⟩ := by
  simp only [AliMNSClient.Send, henc, callerEntries]

/-- The call of `Send` on a payload that encodes, path by path: one signature
request, then, if it is granted, one request being built, then, if that
succeeds, one round trip. -/
theorem Send_of_encoded {σ : Type} (w : World σ) (keys : HeaderKeys) (p : AliMNSClient)
    (method : Method) (headers : Option Headers) (message : Message σ) (resource : String)
    (xmlContent : Bytes) (henc : xmlContentOf w message = .ok xmlContent) :
    p.Send w keys method headers message resource =
      match p.credential.Signature method (requiredHeaders keys w.now headers xmlContent)
          ("/" ++ resource) with
      | .error e =>
        ⟨none, some e, requiredHeaders keys w.now headers xmlContent,
          [.signature method (requiredHeaders keys w.now headers xmlContent) ("/" ++ resource)]⟩
      | .ok s =>
        match w.newRequest method (p.url ++ "/" ++ resource) with
        | some err =>
          ⟨none, some err,
            Headers.set (requiredHeaders keys w.now headers xmlContent) keys.AUTHORIZATION
              ("MNS " ++ p.accessKeyId ++ ":" ++ s),
            [.signature method (requiredHeaders keys w.now headers xmlContent) ("/" ++ resource),
              .newRequest method (p.url ++ "/" ++ resource) xmlContent]⟩
        | none =>
          ⟨(w.clientDo p.client p.proxyURL ⟨method, p.url ++ "/" ++ resource,
              addHeaders (w.rangeOrder (Headers.set
                (requiredHeaders keys w.now headers xmlContent) keys.AUTHORIZATION
                ("MNS " ++ p.accessKeyId ++ ":" ++ s))), xmlContent⟩).1,
            (w.clientDo p.client p.proxyURL ⟨method, p.url ++ "/" ++ resource,
              addHeaders (w.rangeOrder (Headers.set
                (requiredHeaders keys w.now headers xmlContent) keys.AUTHORIZATION
                ("MNS " ++ p.accessKeyId ++ ":" ++ s))), xmlContent⟩).2,
            Headers.set (requiredHeaders keys w.now headers xmlContent) keys.AUTHORIZATION
              ("MNS " ++ p.accessKeyId ++ ":" ++ s),
            [.signature method (requiredHeaders keys w.now headers xmlContent) ("/" ++ resource),
              .newRequest method (p.url ++ "/" ++ resource) xmlContent,
              .httpDo ⟨method, p.url ++ "/" ++ resource,
                addHeaders (w.rangeOrder (Headers.set
                  (requiredHeaders keys w.now headers xmlContent) keys.AUTHORIZATION
                  ("MNS " ++ p.accessKeyId ++ ":" ++ s))), xmlContent⟩]⟩ := by
  simp only [AliMNSClient.Send, henc, AliMNSClient.authorization]
  cases p.credential.Signature method (requiredHeaders keys w.now headers xmlContent)
      ("/" ++ resource) with
  | error e => rfl
  | ok s =>
    simp only []
    cases w.newRequest method (p.url ++ "/" ++ resource) with
    | some e => rfl
    | none =>
      simp only []
      rcases hdo : w.clientDo p.client p.proxyURL _ with ⟨resp, _ | err⟩ <;> rfl

/-- The first effect of `Send` on a payload that encodes is the signature
request. -/
theorem Send_head {σ : Type} (w : World σ) (keys : HeaderKeys) (p : AliMNSClient)
    (method : Method) (headers : Option Headers) (message : Message σ) (resource : String)
    (xmlContent : Bytes) (henc : xmlContentOf w message = .ok xmlContent) :
    (p.Send w keys method headers message resource).effects.head?
      = some (.signature method (requiredHeaders keys w.now headers xmlContent)
          ("/" ++ resource)) := by
  rw [Send_of_encoded w keys p method headers message resource xmlContent henc]
  cases p.credential.Signature method (requiredHeaders keys w.now headers xmlContent)
      ("/" ++ resource) with
  | error e => rfl
  | ok s =>
    simp only []
    cases w.newRequest method (p.url ++ "/" ++ resource) <;> rfl

/-- The header map `Send` leaves behind on a payload that encodes is the signed
map, with the authorization entry added once the signature is granted. -/
theorem Send_headers {σ : Type} (w : World σ) (keys : HeaderKeys) (p : AliMNSClient)
    (method : Method) (headers : Option Headers) (message : Message σ) (resource : String)
    (xmlContent : Bytes) (henc : xmlContentOf w message = .ok xmlContent) :
    (p.Send w keys method headers message resource).headers
      = match p.credential.Signature method (requiredHeaders keys w.now headers xmlContent)
          ("/" ++ resource) with
        | .error _ => requiredHeaders keys w.now headers xmlContent
        | .ok s => Headers.set (requiredHeaders keys w.now headers xmlContent)
            keys.AUTHORIZATION ("MNS " ++ p.accessKeyId ++ ":" ++ s) := by
  rw [Send_of_encoded w keys p method headers message resource xmlContent henc]
  cases p.credential.Signature method (requiredHeaders keys w.now headers xmlContent)
      ("/" ++ resource) with
  | error e => rfl
  | ok s =>
    simp only []
    cases w.newRequest method (p.url ++ "/" ++ resource) <;> rfl

/-- A request `Send` transmitted has the method, the target and the body of
the call, and its header holds the entries of the map `Send` leaves behind,
added in the order `range` visits them. -/
theorem Send_transmitted {σ : Type} (w : World σ) (keys : HeaderKeys) (p : AliMNSClient)
    (method : Method) (headers : Option Headers) (message : Message σ) (resource : String)
    (xmlContent : Bytes) (henc : xmlContentOf w message = .ok xmlContent) (req : Request)
    (hreq : req ∈ (p.Send w keys method headers message resource).transmitted) :
    req = ⟨method, p.url ++ "/" ++ resource,
      addHeaders (w.rangeOrder (p.Send w keys method headers message resource).headers),
      xmlContent⟩ := by
  rw [Send_headers w keys p method headers message resource xmlContent henc]
  rw [Send_of_encoded w keys p method headers message resource xmlContent henc] at hreq
  cases hs : p.credential.Signature method (requiredHeaders keys w.now headers xmlContent)
      ("/" ++ resource) with
  | error e => simp [hs, SendReturn.transmitted, ClientEffect.request?] at hreq
  | ok s =>
    rw [hs] at hreq
    simp only [] at hreq ⊢
    cases hn : w.newRequest method (p.url ++ "/" ++ resource) with
    | some e => simp [hn, SendReturn.transmitted, ClientEffect.request?] at hreq
    | none => simpa [hn, SendReturn.transmitted, ClientEffect.request?] using hreq

/-- One request is transmitted once the signature is granted and the request
can be built. -/
theorem Send_transmits {σ : Type} (w : World σ) (keys : HeaderKeys) (p : AliMNSClient)
    (method : Method) (headers : Option Headers) (message : Message σ) (resource : String)
    (xmlContent : Bytes) (henc : xmlContentOf w message = .ok xmlContent) (s : String)
    (hs : p.credential.Signature method (requiredHeaders keys w.now headers xmlContent)
      ("/" ++ resource) = .ok s)
    (hn : w.newRequest method (p.url ++ "/" ++ resource) = none) :
    (p.Send w keys method headers message resource).transmitted.length = 1 := by
  rw [Send_of_encoded w keys p method headers message resource xmlContent henc, hs]
  simp only [hn]
  rfl

/-- The four required headers are in the map `requiredHeaders` builds. -/
theorem requiredHeaders_has (keys : HeaderKeys) (now : Nat) (headers : Option Headers)
    (xmlContent : Bytes) (hkeys : keys.Distinct) :
    HasRequiredHeaders keys now xmlContent (requiredHeaders keys now headers xmlContent) := by
  simp only [HeaderKeys.Distinct, List.nodup_cons, List.mem_cons, List.mem_singleton,
    not_or, List.not_mem_nil, not_false_eq_true, List.nodup_nil, and_true] at hkeys
  obtain ⟨⟨h12, h13, h14, -⟩, ⟨h23, h24, -⟩, ⟨h34, -⟩, -⟩ := hkeys
  unfold HasRequiredHeaders requiredHeaders
  refine ⟨?_, ?_, ?_, ?_⟩
  · rw [Headers.get_set_of_ne _ _ _ _ (Ne.symm h14), Headers.get_set_of_ne _ _ _ _ (Ne.symm h13),
      Headers.get_set_of_ne _ _ _ _ (Ne.symm h12), Headers.get_set_self]
    rfl
  · rw [Headers.get_set_of_ne _ _ _ _ (Ne.symm h24), Headers.get_set_of_ne _ _ _ _ (Ne.symm h23),
      Headers.get_set_self]
  · rw [Headers.get_set_of_ne _ _ _ _ (Ne.symm h34), Headers.get_set_self]
  · rw [Headers.get_set_self]

/-- An entry of the caller under a key that is none of the four required ones
is in the map `requiredHeaders` builds. -/
theorem requiredHeaders_keeps (keys : HeaderKeys) (now : Nat) (headers : Option Headers)
    (xmlContent : Bytes) (k : String)
    (hk : k ∉ [keys.MQ_VERSION, keys.CONTENT_TYPE, keys.CONTENT_MD5, keys.DATE]) :
    Headers.get (requiredHeaders keys now headers xmlContent) k
      = Headers.get (callerEntries headers) k := by
  simp only [List.mem_cons, List.mem_singleton, not_or, List.not_mem_nil, not_false_eq_true,
    and_true] at hk
  obtain ⟨h1, h2, h3, h4⟩ := hk
  unfold requiredHeaders callerEntries
  rw [Headers.get_set_of_ne _ _ _ _ (Ne.symm h4), Headers.get_set_of_ne _ _ _ _ (Ne.symm h3),
    Headers.get_set_of_ne _ _ _ _ (Ne.symm h2), Headers.get_set_of_ne _ _ _ _ (Ne.symm h1)]
  cases headers <;> rfl

/-- The header map `Send` leaves behind on a payload that encodes holds the
four required headers: the authorization key is a fifth key. -/
theorem Send_headers_required {σ : Type} (w : World σ) (keys : HeaderKeys) (p : AliMNSClient)
    (method : Method) (headers : Option Headers) (message : Message σ) (resource : String)
    (xmlContent : Bytes) (hkeys : keys.Distinct)
    (henc : xmlContentOf w message = .ok xmlContent) :
    HasRequiredHeaders keys w.now xmlContent
      (p.Send w keys method headers message resource).headers := by
  have hreq4 := requiredHeaders_has keys w.now headers xmlContent hkeys
  rw [Send_headers w keys p method headers message resource xmlContent henc]
  cases p.credential.Signature method (requiredHeaders keys w.now headers xmlContent)
      ("/" ++ resource) with
  | error e => exact hreq4
  | ok s =>
    simp only [HeaderKeys.Distinct, List.nodup_cons, List.mem_cons, List.mem_singleton,
      not_or, List.not_mem_nil, not_false_eq_true, List.nodup_nil, and_true] at hkeys
    obtain ⟨⟨-, -, -, h15⟩, ⟨-, -, h25⟩, ⟨-, h35⟩, h45⟩ := hkeys
    obtain ⟨g1, g2, g3, g4⟩ := hreq4
    refine ⟨?_, ?_, ?_, ?_⟩
    · simp only []
      rw [Headers.get_set_of_ne _ _ _ _ (Ne.symm h15)]
      exact g1
    · simp only []
      rw [Headers.get_set_of_ne _ _ _ _ (Ne.symm h25)]
      exact g2
    · simp only []
      rw [Headers.get_set_of_ne _ _ _ _ (Ne.symm h35)]
      exact g3
    · simp only []
      rw [Headers.get_set_of_ne _ _ _ _ (Ne.symm h45)]
      exact g4

/-- The header map `Send` leaves behind on a payload that encodes keeps every
entry of the caller under a key that is none of the five keys `Send` sets. -/
theorem Send_headers_keeps {σ : Type} (w : World σ) (keys : HeaderKeys) (p : AliMNSClient)
    (method : Method) (headers : Option Headers) (message : Message σ) (resource : String)
    (xmlContent : Bytes) (henc : xmlContentOf w message = .ok xmlContent) (k : String)
    (hk : k ∉ [keys.MQ_VERSION, keys.CONTENT_TYPE, keys.CONTENT_MD5, keys.DATE,
      keys.AUTHORIZATION]) :
    Headers.get (p.Send w keys method headers message resource).headers k
      = Headers.get (callerEntries headers) k := by
  simp only [List.mem_cons, List.mem_singleton, not_or, List.not_mem_nil, not_false_eq_true,
    and_true] at hk
  obtain ⟨h1, h2, h3, h4, h5⟩ := hk
  have h4keys := requiredHeaders_keeps keys w.now headers xmlContent k (by simp [h1, h2, h3, h4])
  rw [Send_headers w keys p method headers message resource xmlContent henc]
  cases p.credential.Signature method (requiredHeaders keys w.now headers xmlContent)
      ("/" ++ resource) with
  | error e => exact h4keys
  | ok s =>
    simp only []
    rw [Headers.get_set_of_ne _ _ _ _ (Ne.symm h5)]
    exact h4keys

/-- The HTTP date of five instants: the start of 1970, two leap days, the last
second of 9999 and a morning in November 2026. -/
theorem httpDate_known :
    httpDate 0 = "Thu, 01 Jan 1970 00:00:00 GMT" ∧
    httpDate 951782400 = "Tue, 29 Feb 2000 00:00:00 GMT" ∧
    httpDate 1709251199 = "Thu, 29 Feb 2024 23:59:59 GMT" ∧
    httpDate 1793786400 = "Wed, 04 Nov 2026 10:00:00 GMT" ∧
    httpDate 253402300799 = "Fri, 31 Dec 9999 23:59:59 GMT" := by
  refine ⟨?_, ?_, ?_, ?_, ?_⟩ <;> decide

/-- C6 (as stated, refuted): a caller whose map holds `content-type: text/plain`
gets a request transmitted with two values under `Content-Type`, its own and
`application/xml`, although the signed map holds `application/xml` alone
under the content-type key. -/
theorem Send_transmits_caller_content_type :
    (exampleClient.Send (exampleWorld Unit 201 []) exampleKeys PUT
        (some [("content-type", "text/plain")]) (.bytes [60, 113, 47, 62])
        "queues/orders").transmitted.map (fun req => HTTPHeader.get req.header "Content-Type")
      = [["text/plain", "application/xml"]] ∧
    Headers.get (exampleClient.Send (exampleWorld Unit 201 []) exampleKeys PUT
        (some [("content-type", "text/plain")]) (.bytes [60, 113, 47, 62])
        "queues/orders").headers "Content-Type" = some "application/xml" := by
  constructor <;> decide

/-- C6 (amended): for every caller-supplied header map (nil included) and every
payload that encodes, the header map `Send` asks the Credential to sign and
the header map it leaves behind, whose entries it adds to the request, hold
the protocol version `2015-06-06`, the content type `application/xml`, the
encoded digest of the body and the HTTP date of the clock reading (for the
five instants of `httpDate_known`, the dates given there) under exactly the
four required keys, whatever the caller supplied under those keys, and every
caller entry under another key (the authorization key apart) unchanged.  One
request is handed to the HTTP client once the signature is granted and the
request can be built; its header carries under each canonical key the values
of the map entries whose key has that canonical form: every value of the map
is among the values under the canonical form of its key, and is the only one
when the map holds no other entry whose key has that canonical form. -/
theorem Send_sets_required_headers {σ : Type} (w : World σ) (keys : HeaderKeys)
    (p : AliMNSClient) (method : Method) (headers : Option Headers) (message : Message σ)
    (resource : String) (xmlContent : Bytes) (hkeys : keys.Distinct)
    (henc : xmlContentOf w message = .ok xmlContent) :
    (∃ signed : Headers,
      (p.Send w keys method headers message resource).effects.head?
        = some (.signature method signed ("/" ++ resource)) ∧
      HasRequiredHeaders keys w.now xmlContent signed ∧
      ∀ k v, k ∉ [keys.MQ_VERSION, keys.CONTENT_TYPE, keys.CONTENT_MD5, keys.DATE] →
        Headers.get (callerEntries headers) k = some v → Headers.get signed k = some v) ∧
    (HasRequiredHeaders keys w.now xmlContent
        (p.Send w keys method headers message resource).headers ∧
      ∀ k v, k ∉ [keys.MQ_VERSION, keys.CONTENT_TYPE, keys.CONTENT_MD5, keys.DATE,
          keys.AUTHORIZATION] →
        Headers.get (callerEntries headers) k = some v →
        Headers.get (p.Send w keys method headers message resource).headers k = some v) ∧
    (∀ s, p.credential.Signature method (requiredHeaders keys w.now headers xmlContent)
        ("/" ++ resource) = .ok s →
      w.newRequest method (p.url ++ "/" ++ resource) = none →
      (p.Send w keys method headers message resource).transmitted.length = 1) ∧
    (∀ req ∈ (p.Send w keys method headers message resource).transmitted,
      (∀ c, (HTTPHeader.get req.header c).Perm
        ((Headers.under (p.Send w keys method headers message resource).headers c).map
          Prod.snd)) ∧
      (∀ k v, Headers.get (p.Send w keys method headers message resource).headers k = some v →
        v ∈ HTTPHeader.get req.header (CanonicalMIMEHeaderKey k)) ∧
      (∀ k v, Headers.get (p.Send w keys method headers message resource).headers k = some v →
        (Headers.under (p.Send w keys method headers message resource).headers
          (CanonicalMIMEHeaderKey k)).length ≤ 1 →
        HTTPHeader.get req.header (CanonicalMIMEHeaderKey k) = [v])) ∧
    ((w.now = 0 →
        Headers.get (p.Send w keys method headers message resource).headers keys.DATE
          = some "Thu, 01 Jan 1970 00:00:00 GMT") ∧
      (w.now = 951782400 →
        Headers.get (p.Send w keys method headers message resource).headers keys.DATE
          = some "Tue, 29 Feb 2000 00:00:00 GMT") ∧
      (w.now = 1709251199 →
        Headers.get (p.Send w keys method headers message resource).headers keys.DATE
          = some "Thu, 29 Feb 2024 23:59:59 GMT") ∧
      (w.now = 1793786400 →
        Headers.get (p.Send w keys method headers message resource).headers keys.DATE
          = some "Wed, 04 Nov 2026 10:00:00 GMT") ∧
      (w.now = 253402300799 →
        Headers.get (p.Send w keys method headers message resource).headers keys.DATE
          = some "Fri, 31 Dec 9999 23:59:59 GMT")) := by
  have hdate : Headers.get (p.Send w keys method headers message resource).headers keys.DATE
      = some (httpDate w.now) :=
    (Send_headers_required w keys p method headers message resource xmlContent hkeys
      henc).2.2.2
  obtain ⟨d0, d1, d2, d3, d4⟩ := httpDate_known
  refine ⟨?_, ?_, ?_, ?_, ⟨?_, ?_, ?_, ?_, ?_⟩⟩
  · refine ⟨requiredHeaders keys w.now headers xmlContent,
      Send_head w keys p method headers message resource xmlContent henc,
      requiredHeaders_has keys w.now headers xmlContent hkeys, ?_⟩
    intro k v hk hv
    rw [requiredHeaders_keeps keys w.now headers xmlContent k hk]
    exact hv
  · refine ⟨Send_headers_required w keys p method headers message resource xmlContent hkeys
      henc, ?_⟩
    intro k v hk hv
    rw [Send_headers_keeps w keys p method headers message resource xmlContent henc k hk]
    exact hv
  · intro s hs hn
    exact Send_transmits w keys p method headers message resource xmlContent henc s hs hn
  · intro req hreq
    have hr := Send_transmitted w keys p method headers message resource xmlContent henc req hreq
    have hperm := w.rangeOrder_perm (p.Send w keys method headers message resource).headers
    refine ⟨?_, ?_, ?_⟩
    · intro c
      rw [hr, HTTPHeader.get_addHeaders]
      exact (List.Perm.filter _ hperm).map _
    · intro k v hv
      rw [hr]
      exact addHeaders_mem _ _ hperm k v hv
    · intro k v hv hone
      rw [hr]
      exact addHeaders_only _ _ hperm k v hv hone
  · intro hnow
    rw [hdate, hnow, d0]
  · intro hnow
    rw [hdate, hnow, d1]
  · intro hnow
    rw [hdate, hnow, d2]
  · intro hnow
    rw [hdate, hnow, d3]
  · intro hnow
    rw [hdate, hnow, d4]

/-- Witness for `Send_sets_required_headers`: a caller that supplies a content
type of its own under the content-type key, and a marker; the request that is
transmitted carries `application/xml` alone, the date of the clock reading and
the marker. -/
theorem Send_sets_required_headers_witness :
    exampleKeys.Distinct ∧
    xmlContentOf (exampleWorld Unit 201 []) (.bytes [60, 113, 47, 62]) = .ok [60, 113, 47, 62] ∧
    HasRequiredHeaders exampleKeys (exampleWorld Unit 201 []).now [60, 113, 47, 62]
      (exampleClient.Send (exampleWorld Unit 201 []) exampleKeys PUT (some callerHeaders)
        (.bytes [60, 113, 47, 62]) "queues/orders").headers ∧
    (exampleClient.Send (exampleWorld Unit 201 []) exampleKeys PUT (some callerHeaders)
      (.bytes [60, 113, 47, 62]) "queues/orders").transmitted.length = 1 ∧
    (exampleClient.Send (exampleWorld Unit 201 []) exampleKeys PUT (some callerHeaders)
      (.bytes [60, 113, 47, 62]) "queues/orders").transmitted.map
        (fun req => (HTTPHeader.get req.header "Content-Type",
          HTTPHeader.get req.header "Date", HTTPHeader.get req.header "X-Mns-Marker",
          HTTPHeader.get req.header "X-Mns-Version"))
      = [(["application/xml"], ["Wed, 04 Nov 2026 10:00:00 GMT"], ["m1"], ["2015-06-06"])] :=
  have h := Send_sets_required_headers (exampleWorld Unit 201 []) exampleKeys exampleClient PUT
    (some callerHeaders) (.bytes [60, 113, 47, 62]) "queues/orders" [60, 113, 47, 62]
    (by decide) rfl
  ⟨by decide, rfl, h.2.1.1, h.2.2.1 "c2lnbmF0dXJl" rfl rfl, by decide⟩

/-- C7 (as stated, refuted): on a payload that cannot be encoded, `Send` returns
the encoding error without any effect: the Credential is never asked for a
signature. -/
theorem Send_unencodable_payload_not_signed :
    (exampleClient.Send (failingMarshalWorld Unit) exampleKeys PUT none (.value ())
        "queues/orders").effects = [] ∧
    (exampleClient.Send (failingMarshalWorld Unit) exampleKeys PUT none (.value ())
        "queues/orders").err = some "xml: unsupported type" := by
  constructor <;> rfl

/-- C7 (amended): for every method, header map and resource path.  On every
payload that cannot be encoded, `Send` returns the encoding error with a nil
response, leaves the header map as it was and has no effect: no signature is
asked for and no request is made.  On every payload that encodes, the first
effect of `Send` is asking the Credential for a signature over the method, the
header map after the four required headers were set, and `/` followed by the
resource.  If that yields a signature `s`, the authorization entry of the
header map is exactly `MNS accessKeyId:s`, the request is built for the target
base url, `/`, resource with the encoded body, one request is handed to the
HTTP client as soon as it can be built, and every request handed over has that
method, target and body and carries the authorization value under the
canonical form of the authorization key.  If it yields an error, `Send` returns
that error with a nil response and hands over no request. -/
theorem Send_signs_then_authorizes {σ : Type} (w : World σ) (keys : HeaderKeys)
    (p : AliMNSClient) (method : Method) (headers : Option Headers) (message : Message σ)
    (resource : String) :
    (∀ e, xmlContentOf w message = .error e →
      p.Send w keys method headers message resource
        = ⟨none, some e, callerEntries headers, []⟩) ∧
    (∀ xmlContent, xmlContentOf w message = .ok xmlContent →
      (p.Send w keys method headers message resource).effects.head?
        = some (.signature method (requiredHeaders keys w.now headers xmlContent)
            ("/" ++ resource)) ∧
      (∀ s, p.credential.Signature method (requiredHeaders keys w.now headers xmlContent)
          ("/" ++ resource) = .ok s →
        Headers.get (p.Send w keys method headers message resource).headers keys.AUTHORIZATION
          = some ("MNS " ++ p.accessKeyId ++ ":" ++ s) ∧
        (p.Send w keys method headers message resource).effects[1]?
          = some (.newRequest method (p.url ++ "/" ++ resource) xmlContent) ∧
        (w.newRequest method (p.url ++ "/" ++ resource) = none →
          (p.Send w keys method headers message resource).transmitted.length = 1) ∧
        (∀ req ∈ (p.Send w keys method headers message resource).transmitted,
          req.method = method ∧ req.url = p.url ++ "/" ++ resource ∧ req.body = xmlContent ∧
          "MNS " ++ p.accessKeyId ++ ":" ++ s
            ∈ HTTPHeader.get req.header (CanonicalMIMEHeaderKey keys.AUTHORIZATION))) ∧
      (∀ e, p.credential.Signature method (requiredHeaders keys w.now headers xmlContent)
          ("/" ++ resource) = .error e →
        (p.Send w keys method headers message resource).resp = none ∧
        (p.Send w keys method headers message resource).err = some e ∧
        (p.Send w keys method headers message resource).transmitted = [])) := by
  refine ⟨?_, ?_⟩
  · intro e henc
    exact Send_of_unencodable w keys p method headers message resource e henc
  · intro xmlContent henc
    have hsend := Send_of_encoded w keys p method headers message resource xmlContent henc
    refine ⟨Send_head w keys p method headers message resource xmlContent henc, ?_, ?_⟩
    · intro s hs
      have hauth : Headers.get (p.Send w keys method headers message resource).headers
          keys.AUTHORIZATION = some ("MNS " ++ p.accessKeyId ++ ":" ++ s) := by
        rw [Send_headers w keys p method headers message resource xmlContent henc, hs]
        exact Headers.get_set_self _ _ _
      refine ⟨hauth, ?_, ?_, ?_⟩
      · rw [hsend, hs]
        simp only []
        cases w.newRequest method (p.url ++ "/" ++ resource) <;> rfl
      · intro hn
        exact Send_transmits w keys p method headers message resource xmlContent henc s hs hn
      · intro req hreq
        have hr := Send_transmitted w keys p method headers message resource xmlContent henc
          req hreq
        refine ⟨by rw [hr], by rw [hr], by rw [hr], ?_⟩
        rw [hr]
        exact addHeaders_mem _ _ (w.rangeOrder_perm _) _ _ hauth
    · intro e he
      rw [hsend, he]
      exact ⟨rfl, rfl, rfl⟩

/-- Witness for `Send_signs_then_authorizes`: a structured payload in a world
where none encodes, and in a world where it encodes and is transmitted. -/
theorem Send_signs_then_authorizes_witness :
    xmlContentOf (failingMarshalWorld Unit) (.value ()) = .error "xml: unsupported type" ∧
    exampleClient.Send (failingMarshalWorld Unit) exampleKeys PUT (some callerHeaders)
      (.value ()) "queues/orders"
      = ⟨none, some "xml: unsupported type", callerEntries (some callerHeaders), []⟩ ∧
    xmlContentOf (exampleWorld Unit 201 []) (.value ()) = .ok [60, 113, 47, 62] ∧
    exampleCredential.Signature PUT
      (requiredHeaders exampleKeys (exampleWorld Unit 201 []).now none [60, 113, 47, 62])
      ("/" ++ "queues/orders") = .ok "c2lnbmF0dXJl" ∧
    Headers.get (exampleClient.Send (exampleWorld Unit 201 []) exampleKeys PUT none (.value ())
      "queues/orders").headers exampleKeys.AUTHORIZATION
      = some ("MNS " ++ exampleClient.accessKeyId ++ ":" ++ "c2lnbmF0dXJl") ∧
    (exampleClient.Send (exampleWorld Unit 201 []) exampleKeys PUT none (.value ())
      "queues/orders").transmitted.length = 1 ∧
    (exampleClient.Send (exampleWorld Unit 201 []) exampleKeys PUT none (.value ())
      "queues/orders").transmitted.map
        (fun req => (req.method, req.url, req.body, HTTPHeader.get req.header "Authorization"))
      = [("PUT", "http://owner.mns.cn-hangzhou.aliyuncs.com/queues/orders", [60, 113, 47, 62],
          ["MNS key-id:c2lnbmF0dXJl"])] :=
  have h₁ := (Send_signs_then_authorizes (failingMarshalWorld Unit) exampleKeys exampleClient
    PUT (some callerHeaders) (.value ()) "queues/orders").1 "xml: unsupported type" rfl
  have h₂ := ((Send_signs_then_authorizes (exampleWorld Unit 201 []) exampleKeys exampleClient
    PUT none (.value ()) "queues/orders").2 [60, 113, 47, 62] rfl).2.1 "c2lnbmF0dXJl" rfl
  ⟨rfl, h₁, rfl, rfl, h₂.1, h₂.2.2.1 rfl, by decide⟩

/-- C9 (the code at the failing input): the client `NewAliMNSClient` returns has
`Timeout = 0` and a transport configured with 35 and 36 seconds; a caller who
then sets `Timeout` to 10 still has the transport of 35 and 36 seconds. -/
theorem NewAliMNSClient_ignores_Timeout :
    ∃ c, NewAliMNSClient (fun _ => exampleCredential)
        "http://owner.mns.cn-hangzhou.aliyuncs.com" "key-id" "key-secret" = .ret c ∧
      c.Timeout = 0 ∧
      ({ c with Timeout := 10 }).client.ExpectContinueTimeout = 35 * Second ∧
      ({ c with Timeout := 10 }).client.ResponseHeaderTimeout = 36 * Second ∧
      ({ c with Timeout := 10 }).client.ExpectContinueTimeout ≠ 10 * Second := by
  refine ⟨_, by simp only [NewAliMNSClient]; rfl, rfl, ?_, ?_, ?_⟩ <;> decide

/-! ## The content digest -/

/-- Every digit `%x` prints is a lowercase hexadecimal digit. -/
theorem hexDigit_mem (n : Nat) : hexDigit n ∈ "0123456789abcdef".toList := by
  unfold hexDigit
  rw [List.getD_eq_getElem?_getD]
  by_cases h : n < 16
  · interval_cases n <;> decide
  · have : "0123456789abcdef".toList[n]? = none := by
      rw [List.getElem?_eq_none]
      simp only [not_lt] at h
      exact h
    rw [this]
    decide

/-- The text `%x` prints for an MD5 digest has 32 characters, all of them
lowercase hexadecimal digits. -/
theorem sprintfHex_md5Sum (b : Bytes) :
    (sprintfHex (md5Sum b)).length = 32 ∧
    ∀ c ∈ (sprintfHex (md5Sum b)).toList, c ∈ "0123456789abcdef".toList := by
  constructor
  · simp [sprintfHex, hexBytes, md5Sum, le32, String.length]
  · intro c hc
    have hc' : c ∈ hexBytes (md5Sum b) := hc
    generalize md5Sum b = bs at hc'
    unfold hexBytes at hc'
    rw [List.mem_flatMap] at hc'
    obtain ⟨x, -, hx⟩ := hc'
    simp only [List.mem_cons, List.mem_singleton, List.not_mem_nil, or_false] at hx
    rcases hx with rfl | rfl <;> exact hexDigit_mem _

/-- The hexadecimal MD5 of the seven test messages of RFC 1321. -/
theorem md5Sum_rfc1321 :
    sprintfHex (md5Sum []) = "d41d8cd98f00b204e9800998ecf8427e" ∧
    sprintfHex (md5Sum (asciiBytes "a")) = "0cc175b9c0f1b6a831c399e269772661" ∧
    sprintfHex (md5Sum (asciiBytes "abc")) = "900150983cd24fb0d6963f7d28e17f72" ∧
    sprintfHex (md5Sum (asciiBytes "message digest")) = "f96b697d7cb7938d525a2f31aaf161d0" ∧
    sprintfHex (md5Sum (asciiBytes "abcdefghijklmnopqrstuvwxyz"))
      = "c3fcd3d76192e4007dfb496cca67e13b" ∧
    sprintfHex (md5Sum (asciiBytes
      "ABCDEFGHIJKLMNOPQRSTUVWXYZabcdefghijklmnopqrstuvwxyz0123456789"))
      = "d174ab98d277d9f5a5611c2c9f419d9f" ∧
    sprintfHex (md5Sum (asciiBytes
      "12345678901234567890123456789012345678901234567890123456789012345678901234567890"))
      = "57edf4a22be3c955ac49da2e2107b67a" := by
  refine ⟨?_, ?_, ?_, ?_, ?_, ?_, ?_⟩ <;> decide

/-- The content digest of the empty body and of three of the test messages of
RFC 1321, the last one two blocks long. -/
theorem contentDigest_known :
    base64EncodeToString (stringBytes (sprintfHex (md5Sum [])))
      = "ZDQxZDhjZDk4ZjAwYjIwNGU5ODAwOTk4ZWNmODQyN2U=" ∧
    base64EncodeToString (stringBytes (sprintfHex (md5Sum (asciiBytes "abc"))))
      = "OTAwMTUwOTgzY2QyNGZiMGQ2OTYzZjdkMjhlMTdmNzI=" ∧
    base64EncodeToString (stringBytes (sprintfHex (md5Sum (asciiBytes "message digest"))))
      = "Zjk2YjY5N2Q3Y2I3OTM4ZDUyNWEyZjMxYWFmMTYxZDA=" ∧
    base64EncodeToString (stringBytes (sprintfHex (md5Sum (asciiBytes
      "12345678901234567890123456789012345678901234567890123456789012345678901234567890"))))
      = "NTdlZGY0YTIyYmUzYzk1NWFjNDlkYTJlMjEwN2I2N2E=" := by
  refine ⟨?_, ?_, ?_, ?_⟩ <;> decide

/-- Padded base64 turns every three bytes, complete or not, into four
characters. -/
theorem base64Encode_length (l : List Nat) :
    (base64Encode l).length = 4 * ((l.length + 2) / 3) := by
  induction l using base64Encode.induct with
  | case1 => rfl
  | case2 a => simp [base64Encode]
  | case3 a b => simp [base64Encode]
  | case4 a b c rest ih =>
    simp only [base64Encode, List.length_cons, ih]
    omega

/-- C8: for every raw-bytes payload `b` (nil counting as the empty sequence),
the header map `Send` signs and the header map it leaves behind hold, under
the content-digest key, the base64 encoding (44 characters) of the
32-character lowercase hexadecimal MD5 of `b`; one request is transmitted once
the signature is granted and the request can be built; every request
transmitted has exactly `b` as its body and carries that value under the
canonical form of the content-digest key, alone when the map holds no other
entry whose key has that canonical form.  For the empty sequence the header
value is `ZDQxZDhjZDk4ZjAwYjIwNGU5ODAwOTk4ZWNmODQyN2U=`; for the test messages
`abc`, `message digest` and the eighty digits of RFC 1321 it is the encoding
of their published digests. -/
theorem Send_raw_body_and_digest {σ : Type} (w : World σ) (keys : HeaderKeys)
    (p : AliMNSClient) (method : Method) (headers : Option Headers) (message : Message σ)
    (resource : String) (b : Bytes) (hkeys : keys.Distinct)
    (hmsg : message = .bytes b ∨ (message = .nil ∧ b = [])) :
    ((sprintfHex (md5Sum b)).length = 32 ∧
      (∀ c ∈ (sprintfHex (md5Sum b)).toList, c ∈ "0123456789abcdef".toList) ∧
      (base64EncodeToString (stringBytes (sprintfHex (md5Sum b)))).length = 44) ∧
    (∃ signed : Headers,
      (p.Send w keys method headers message resource).effects.head?
        = some (.signature method signed ("/" ++ resource)) ∧
      Headers.get signed keys.CONTENT_MD5
        = some (base64EncodeToString (stringBytes (sprintfHex (md5Sum b))))) ∧
    Headers.get (p.Send w keys method headers message resource).headers keys.CONTENT_MD5
      = some (base64EncodeToString (stringBytes (sprintfHex (md5Sum b)))) ∧
    (∀ s, p.credential.Signature method (requiredHeaders keys w.now headers b)
        ("/" ++ resource) = .ok s →
      w.newRequest method (p.url ++ "/" ++ resource) = none →
      (p.Send w keys method headers message resource).transmitted.length = 1) ∧
    (∀ req ∈ (p.Send w keys method headers message resource).transmitted,
      req.body = b ∧
      base64EncodeToString (stringBytes (sprintfHex (md5Sum b)))
        ∈ HTTPHeader.get req.header (CanonicalMIMEHeaderKey keys.CONTENT_MD5) ∧
      ((Headers.under (p.Send w keys method headers message resource).headers
          (CanonicalMIMEHeaderKey keys.CONTENT_MD5)).length ≤ 1 →
        HTTPHeader.get req.header (CanonicalMIMEHeaderKey keys.CONTENT_MD5)
          = [base64EncodeToString (stringBytes (sprintfHex (md5Sum b)))])) ∧
    (b = [] →
      Headers.get (p.Send w keys method headers message resource).headers keys.CONTENT_MD5
        = some "ZDQxZDhjZDk4ZjAwYjIwNGU5ODAwOTk4ZWNmODQyN2U=") ∧
    (b = asciiBytes "abc" →
      Headers.get (p.Send w keys method headers message resource).headers keys.CONTENT_MD5
        = some "OTAwMTUwOTgzY2QyNGZiMGQ2OTYzZjdkMjhlMTdmNzI=") ∧
    (b = asciiBytes "message digest" →
      Headers.get (p.Send w keys method headers message resource).headers keys.CONTENT_MD5
        = some "Zjk2YjY5N2Q3Y2I3OTM4ZDUyNWEyZjMxYWFmMTYxZDA=") ∧
    (b = asciiBytes
        "12345678901234567890123456789012345678901234567890123456789012345678901234567890" →
      Headers.get (p.Send w keys method headers message resource).headers keys.CONTENT_MD5
        = some "NTdlZGY0YTIyYmUzYzk1NWFjNDlkYTJlMjEwN2I2N2E=") := by
  have henc : xmlContentOf w message = .ok b := by
    rcases hmsg with h | ⟨h, hb⟩
    · rw [h]; rfl
    · rw [h, hb]; rfl
  have hmap : Headers.get (p.Send w keys method headers message resource).headers
      keys.CONTENT_MD5 = some (base64EncodeToString (stringBytes (sprintfHex (md5Sum b)))) :=
    (Send_headers_required w keys p method headers message resource b hkeys henc).2.2.1
  have hhex := sprintfHex_md5Sum b
  obtain ⟨k0, k1, k2, k3⟩ := contentDigest_known
  refine ⟨⟨hhex.1, hhex.2, ?_⟩, ?_, hmap, ?_, ?_, ?_, ?_, ?_, ?_⟩
  · have hlen : (stringBytes (sprintfHex (md5Sum b))).length = 32 := by
      unfold stringBytes
      rw [List.length_map]
      exact hhex.1
    show (base64Encode _).length = 44
    rw [base64Encode_length, hlen]
  · exact ⟨requiredHeaders keys w.now headers b,
      Send_head w keys p method headers message resource b henc,
      (requiredHeaders_has keys w.now headers b hkeys).2.2.1⟩
  · intro s hs hn
    exact Send_transmits w keys p method headers message resource b henc s hs hn
  · intro req hreq
    have hr := Send_transmitted w keys p method headers message resource b henc req hreq
    have hperm := w.rangeOrder_perm (p.Send w keys method headers message resource).headers
    refine ⟨by rw [hr], ?_, ?_⟩
    · rw [hr]
      exact addHeaders_mem _ _ hperm _ _ hmap
    · intro hone
      rw [hr]
      exact addHeaders_only _ _ hperm _ _ hmap hone
  · intro hb
    rw [hmap, hb, k0]
  · intro hb
    rw [hmap, hb, k1]
  · intro hb
    rw [hmap, hb, k2]
  · intro hb
    rw [hmap, hb, k3]

/-- Witness for `Send_raw_body_and_digest`: the body `abc`, sent by a caller
with headers of its own; the map and the transmitted request carry the
encoded digest of `abc`, and the transmitted body is `abc`. -/
theorem Send_raw_body_and_digest_witness :
    exampleKeys.Distinct ∧
    Headers.get (exampleClient.Send (exampleWorld Unit 200 []) exampleKeys POST
      (some callerHeaders) (Message.bytes (asciiBytes "abc")) "queues/orders/messages").headers
      exampleKeys.CONTENT_MD5 = some "OTAwMTUwOTgzY2QyNGZiMGQ2OTYzZjdkMjhlMTdmNzI=" ∧
    (exampleClient.Send (exampleWorld Unit 200 []) exampleKeys POST
      (some callerHeaders) (Message.bytes (asciiBytes "abc"))
      "queues/orders/messages").transmitted.length = 1 ∧
    (exampleClient.Send (exampleWorld Unit 200 []) exampleKeys POST
      (some callerHeaders) (Message.bytes (asciiBytes "abc"))
      "queues/orders/messages").transmitted.map
        (fun req => (req.body, HTTPHeader.get req.header "Content-Md5"))
      = [([97, 98, 99], ["OTAwMTUwOTgzY2QyNGZiMGQ2OTYzZjdkMjhlMTdmNzI="])] :=
  have h := Send_raw_body_and_digest (exampleWorld Unit 200 []) exampleKeys exampleClient POST
    (some callerHeaders) (Message.bytes (asciiBytes "abc")) "queues/orders/messages"
    (asciiBytes "abc") (by decide) (Or.inl rfl)
  ⟨by decide, h.2.2.2.2.2.2.1 rfl, h.2.2.2.1 "c2lnbmF0dXJl" rfl rfl, by decide⟩

end Alimns
